import Mathlib

/-!
# Verification of the JesseHillClimb simulation core

A shallow embedding of the deterministic parts of
`src/components/HillClimbCanvas.tsx`: the seeded RNG (`mulberry32`), the
terrain generator (`buildTrack`), the terrain height query (`sampleTrackY`),
and the per-tick control/scoring step (`stepGame`), together with theorems
about the run-state machine, fuel bounds, distance monotonicity, flip
scoring, crash detection and angle normalization.

## Modelling conventions

* JavaScript `number` arithmetic is idealized as exact arithmetic over `ℚ`;
  decimal literals of the source become the corresponding exact rationals.
  `Math.PI` is modelled as the exact rational value of the IEEE-754 double
  that JavaScript uses for it.
* `Math.imul`, `^`, `|`, `>>>` are modelled exactly over naturals reduced
  mod 2^32 (the unsigned view of JS 32-bit integer coercions, with which all
  the source's bit operations are congruent).
* `Math.sin` is implementation-approximated per the ECMAScript standard, so
  it is carried as an explicit function parameter `sinF` of the terrain
  generator rather than fixed to a particular approximation.
* The physics engine (planck.js) is an oracle: everything `stepGame` reads
  from it during one tick (body positions, velocities, angles, wheel contact
  counts) is collected in an `Obs` record that is universally quantified,
  and everything `stepGame` writes to it (motor speeds, torques, damping)
  is computed by `motorCommand` but has no feedback other than through the
  next tick's `Obs`.
* The UI toast string is abstracted to its payload (a `Toast` value); the
  exact string formatting is render-layer presentation.
* `flipEvents` and `fuelLog` are ghost instrumentation: `flipEvents` records
  the size of every flip-reward event (one entry per toast/award emitted at
  line 1000-1014 of the source), `fuelLog` records `(fuel before, fuel
  after)` of every fuel-pickup collection.  Neither influences any computed
  field.
-/

namespace HillClimb

/-- `DT = 1/HZ` with `HZ = 60`: the fixed simulation timestep. -/
def DT : ℚ := 1 / 60

/-- The exact rational value of the IEEE-754 double `Math.PI`
(`0x400921FB54442D18` = 884279719003555 / 2^48). -/
def PI : ℚ := 884279719003555 / 281474976710656

/-- Left edge of the generated track (`TRACK_X0 = -40`). -/
def TRACK_X0 : ℚ := -40

/-- Right edge of the generated track (`TRACK_X1 = 1800`). -/
def TRACK_X1 : ℚ := 1800

/-- Sample spacing of the track polyline (`TRACK_DX = 0.25`). -/
def TRACK_DX : ℚ := 1 / 4

/-- `clamp(v, lo, hi) = Math.max(lo, Math.min(hi, v))`. -/
def clamp (v lo hi : ℚ) : ℚ := max lo (min hi v)

/-- `clamp01(v) = clamp(v, 0, 1)`. -/
def clamp01 (v : ℚ) : ℚ := clamp v 0 1

/-- The `smooth01` smoothstep used by `buildTrack`:
`u * u * (3 - 2 * u)` on the clamped argument. -/
def smooth01 (t : ℚ) : ℚ :=
  let u := clamp01 t
  u * u * (3 - 2 * u)

/-- Truncation toward zero, as used by the JavaScript `%` operator. -/
def ratTrunc (q : ℚ) : ℤ := if 0 ≤ q then ⌊q⌋ else ⌈q⌉

/-- The JavaScript remainder operator `x % y` on (finite, nonzero-divisor)
numbers: `x - y * truncate(x / y)`; the result keeps the sign of `x`. -/
def jsMod (x y : ℚ) : ℚ := x - y * ratTrunc (x / y)

/-- The angle-normalization expression the source uses at both comparison
sites (`pitchAbs` for the motor pitch cut, and `pitchNorm` for the
upside-down crash check): `((pitch + Math.PI) % (2 * Math.PI)) - Math.PI`. -/
def jsPitchNorm (pitch : ℚ) : ℚ := jsMod (pitch + PI) (2 * PI) - PI

/-- First unwrap loop of the flip tracker: `while (d > Math.PI) d -= 2π`. -/
def unwrapHi (d : ℚ) : ℚ :=
  if h : PI < d then unwrapHi (d - 2 * PI) else d
termination_by (⌊(d - PI) / (2 * PI)⌋ + 1).toNat
decreasing_by
  have hpi : (0 : ℚ) < PI := by norm_num [PI]
  have h1 : (0 : ℚ) < d - PI := by linarith
  have h2 : (0 : ℚ) ≤ (d - PI) / (2 * PI) := by positivity
  have h3 : (0 : ℤ) ≤ ⌊(d - PI) / (2 * PI)⌋ := Int.floor_nonneg.mpr h2
  have h4 : (d - 2 * PI - PI) / (2 * PI) = (d - PI) / (2 * PI) - 1 := by
    field_simp
    ring
  have h5 : ⌊(d - 2 * PI - PI) / (2 * PI)⌋ = ⌊(d - PI) / (2 * PI)⌋ - 1 := by
    rw [h4]
    exact_mod_cast Int.floor_sub_int ((d - PI) / (2 * PI)) 1
  omega

/-- Second unwrap loop of the flip tracker: `while (d < -Math.PI) d += 2π`. -/
def unwrapLo (d : ℚ) : ℚ :=
  if h : d < -PI then unwrapLo (d + 2 * PI) else d
termination_by (⌊(-PI - d) / (2 * PI)⌋ + 1).toNat
decreasing_by
  have hpi : (0 : ℚ) < PI := by norm_num [PI]
  have h1 : (0 : ℚ) < -PI - d := by linarith
  have h2 : (0 : ℚ) ≤ (-PI - d) / (2 * PI) := by positivity
  have h3 : (0 : ℤ) ≤ ⌊(-PI - d) / (2 * PI)⌋ := Int.floor_nonneg.mpr h2
  have h4 : (-PI - (d + 2 * PI)) / (2 * PI) = (-PI - d) / (2 * PI) - 1 := by
    field_simp
    ring
  have h5 : ⌊(-PI - (d + 2 * PI)) / (2 * PI)⌋ = ⌊(-PI - d) / (2 * PI)⌋ - 1 := by
    rw [h4]
    exact_mod_cast Int.floor_sub_int ((-PI - d) / (2 * PI)) 1
  omega

/-- The full per-tick angle-delta unwrap (both `while` loops in order). -/
def unwrapD (d : ℚ) : ℚ := unwrapLo (unwrapHi d)

/-- A generated terrain polyline: parallel sample lists `xs`, `ys`. -/
structure Track where
  xs : List ℚ
  ys : List ℚ
deriving DecidableEq, Repr

/-- `sampleTrackY`: height query on a track.  Queries at or outside the
endpoints return the endpoint heights; interior queries locate the segment
by grid index and interpolate linearly. -/
def sampleTrackY (tr : Track) (x : ℚ) : ℚ :=
  if x ≤ tr.xs.getD 0 0 then tr.ys.getD 0 0
  else if tr.xs.getD (tr.xs.length - 1) 0 ≤ x then tr.ys.getD (tr.ys.length - 1) 0
  else
    let i : ℤ := ⌊(x - TRACK_X0) / TRACK_DX⌋
    let i0 : ℕ := (max 0 (min ((tr.xs.length : ℤ) - 2) i)).toNat
    let x0 := tr.xs.getD i0 0
    let x1 := tr.xs.getD (i0 + 1) 0
    let y0 := tr.ys.getD i0 0
    let y1 := tr.ys.getD (i0 + 1) 0
    let u := (x - x0) / (x1 - x0)
    y0 + (y1 - y0) * u

/-- Reduction mod 2^32: the unsigned view of JS 32-bit integer coercions. -/
def mask32 (n : ℕ) : ℕ := n % 4294967296

/-- `Math.imul` on the unsigned-mod-2^32 view. -/
def imul32 (a b : ℕ) : ℕ := mask32 (a * b)

/-- One step of the `mulberry32` generator: from the current accumulator
state, produce the next state and the value in `[0, 1)`.  The source keeps
the accumulator in a closure (`seed += 0x6d2b79f5`); every use of it passes
through a 32-bit coercion, so tracking it mod 2^32 is exact. -/
def mulberry32 (seed : ℕ) : ℕ × ℚ :=
  let s := mask32 (seed + 0x6d2b79f5)
  let t1 := imul32 (Nat.xor s (s >>> 15)) (s ||| 1)
  let t2 := Nat.xor t1 (mask32 (t1 + imul32 (Nat.xor t1 (t1 >>> 7)) (t1 ||| 61)))
  let t3 := Nat.xor t2 (t2 >>> 14)
  (s, (t3 : ℚ) / 4294967296)

/-! ## Run state and per-tick observations -/

/-- The run lifecycle status. -/
inductive Status where
  | IDLE
  | RUN
  | CRASH
  | OUT_OF_FUEL
deriving DecidableEq, Repr

/-- Toast payload (the UI string is render-layer formatting of this data):
`flip c f` stands for `FLIP +c - FUEL +f`, `coin v` for `+v COIN`,
`fuelT v` for `FUEL +v`, `empty` for the cleared toast `""`. -/
inductive Toast where
  | empty
  | flip (coinBonus fuelBonus : ℕ)
  | coin (v : ℚ)
  | fuelT (v : ℚ)
deriving DecidableEq, Repr

/-- Pickup kind. -/
inductive PKind where
  | coin
  | fuel
deriving DecidableEq, Repr

/-- A coin/fuel pickup entity. -/
structure Pickup where
  kind : PKind
  x : ℚ
  y : ℚ
  value : ℚ
  taken : Bool
deriving DecidableEq, Repr

/-- Per-jump airtime/flip tracking (`airRef`). -/
structure AirState where
  active : Bool
  t : ℚ
  acc : ℚ
  lastAngle : ℚ
  flipCount : ℕ
deriving DecidableEq, Repr

/-- End-of-run settle tracking (`crashFreezeRef`). -/
structure FreezeState where
  t : ℚ
  frozen : Bool
deriving DecidableEq, Repr

/-- The HUD/run state (`stateRef`). -/
structure RunState where
  distanceM : ℚ
  bestM : ℚ
  coins : ℚ
  fuel : ℚ
  status : Status
  rpm01 : ℚ
  boost01 : ℚ
  speedKmh : ℚ
  airtimeS : ℚ
  flips : ℕ
  toast : Toast
  toastT : ℚ
deriving DecidableEq, Repr

/-- Everything `stepGame` reads from the physics oracle during one tick.
`vxPre`, `avPre`, `anglePre`, `wheelAVPre` and the contact counts `w1`, `w2`
are read before `world.step`; the remaining body readings are taken after
it.  `speed` stands for `Math.hypot(vx, vy)` (the square root is left to
the oracle).  `bestM` is the externally supplied chain-side best. -/
structure Obs where
  vxPre : ℚ
  avPre : ℚ
  anglePre : ℚ
  wheelAVPre : ℚ
  w1 : ℕ
  w2 : ℕ
  posX : ℚ
  posY : ℚ
  angle : ℚ
  vx : ℚ
  vy : ℚ
  speed : ℚ
  wheelAVPost : ℚ
  headX : ℚ
  headY : ℚ
  wh1X : ℚ
  wh1Y : ℚ
  wh2X : ℚ
  wh2Y : ℚ
  bestM : ℚ
deriving DecidableEq, Repr

/-- The whole mutable session state owned by the loop/control engine:
HUD state, input smoothing refs, air/freeze trackers, pickups and track.
`flipEvents` and `fuelLog` are ghost logs (see the module docstring). -/
structure GState where
  s : RunState
  throttleTarget : ℚ
  throttle : ℚ
  boostHeld : Bool
  air : AirState
  freeze : FreezeState
  pickups : List Pickup
  track : Track
  flipEvents : List ℕ
  fuelLog : List (ℚ × ℚ)
deriving DecidableEq, Repr

/-! ## The per-tick control/scoring step (`stepGame`), phase by phase -/

/-- Input smoothing (`~100ms response`): `throttle += (target - throttle)*k`
with `k = 1 - Math.exp(-10 * DT)`.  `k` is transcendental, so it is kept as
an explicit parameter; every theorem below holds for every value of `k`. -/
def smoothPhase (k : ℚ) (g : GState) : GState :=
  { g with throttle := g.throttle + (g.throttleTarget - g.throttle) * k }

/-- Start on first input: `IDLE → RUN` once `|throttle| > 0.02`. -/
def idlePhase (g : GState) : GState :=
  if g.s.status = Status.IDLE ∧ 2/100 < |g.throttle| then
    { g with s := { g.s with status := Status.RUN } }
  else g

/-- Fuel drain while `RUN`; on reaching `0`, clamp fuel to `0`, transition
to `OUT_OF_FUEL` and force the throttle target non-positive. -/
def fuelPhase (obs : Obs) (g : GState) : GState :=
  if g.s.status = Status.RUN then
    let gas01 := max 0 g.throttle
    let vx := |obs.vxPre|
    let idleDrain : ℚ := 16/100
    let throttleDrain : ℚ := 135/100 * gas01
    let speedDrain : ℚ := 12/1000 * vx * gas01
    let fuel1 := g.s.fuel - (idleDrain + throttleDrain + speedDrain) * DT
    if fuel1 ≤ 0 then
      { g with s := { g.s with fuel := 0, status := Status.OUT_OF_FUEL },
               throttleTarget := min 0 g.throttleTarget }
    else
      { g with s := { g.s with fuel := fuel1 } }
  else g

/-- Boost is spent while held during `RUN` with `boost01 > 0.03`. -/
def boostSpendPhase (g : GState) : GState :=
  if g.s.status = Status.RUN ∧ g.boostHeld = true ∧ 3/100 < g.s.boost01 then
    { g with s := { g.s with boost01 := max 0 (g.s.boost01 - 75/100 * DT) } }
  else g

/-- Light boost charge while airborne during `RUN`/`OUT_OF_FUEL`
(the state-mutating part of the air-control branch). -/
def airChargePhase (obs : Obs) (g : GState) : GState :=
  if (g.s.status = Status.RUN ∨ g.s.status = Status.OUT_OF_FUEL)
      ∧ ¬(0 < obs.w1 ∨ 0 < obs.w2) then
    { g with s := { g.s with boost01 := min 1 (g.s.boost01 + 5/100 * DT) } }
  else g

/-- All state updates of the tick up to (and including) the physics step:
input smoothing, idle start, fuel drain, boost spend, airborne boost
charge.  The motor/stabilization/air-control torques computed in between
act only on the physics oracle; see `motorCommand`. -/
def tickPre (k : ℚ) (obs : Obs) (g : GState) : GState :=
  airChargePhase obs (boostSpendPhase (fuelPhase obs (idlePhase (smoothPhase k g))))

/-- Post-step derived state: distance (monotone max of chassis x), external
best, rpm gauge, speed, toast countdown. -/
def derivPhase (obs : Obs) (g : GState) : GState :=
  let s1 := { g.s with
    distanceM := max g.s.distanceM obs.posX,
    bestM := obs.bestM,
    rpm01 := max 0 (min 1 (|obs.wheelAVPost| / 26)),
    speedKmh := obs.speed * (36/10) }
  if 0 < s1.toastT then
    let tt := max 0 (s1.toastT - DT)
    { g with s := { s1 with
        toastT := tt,
        toast := if tt = 0 then Toast.empty else s1.toast } }
  else
    { g with s := s1 }

/-- Airtime and flip tracking while airborne during `RUN`/`OUT_OF_FUEL`:
accumulate the unwrapped signed angle delta; every full `2π` of
accumulated rotation produces one combined reward event (coins, fuel
clamped at 100, boost, toast), whose size is logged in `flipEvents`. -/
def airPhase (obs : Obs) (g : GState) : GState :=
  if (g.s.status = Status.RUN ∨ g.s.status = Status.OUT_OF_FUEL)
      ∧ ¬(0 < obs.w1 ∨ 0 < obs.w2) then
    let a1 := if g.air.active = false then
        { active := true, t := 0, acc := 0, lastAngle := obs.angle, flipCount := 0 }
      else g.air
    let t2 := a1.t + DT
    let d := unwrapD (obs.angle - a1.lastAngle)
    let acc2 := a1.acc + d
    let flipsNow := (⌊|acc2| / (2 * PI)⌋).toNat
    if a1.flipCount < flipsNow then
      let gained := flipsNow - a1.flipCount
      { g with
        air := { active := true, t := t2, acc := acc2,
                 lastAngle := obs.angle, flipCount := flipsNow },
        flipEvents := g.flipEvents ++ [gained],
        s := { g.s with
          airtimeS := t2,
          flips := g.s.flips + gained,
          coins := g.s.coins + 5 * (gained : ℚ),
          fuel := min 100 (g.s.fuel + 3 * (gained : ℚ)),
          toast := Toast.flip (5 * gained) (3 * gained),
          toastT := 135/100,
          boost01 := min 1 (g.s.boost01 + 18/100 * (gained : ℚ)) } }
    else
      { g with
        air := { active := true, t := t2, acc := acc2,
                 lastAngle := obs.angle, flipCount := a1.flipCount },
        s := { g.s with airtimeS := t2 } }
  else
    { g with air := { g.air with active := false }, s := { g.s with airtimeS := 0 } }

/-- Collection of one pickup against the four query points: mark taken on
proximity hit and apply the reward; a fuel pickup collected while
`OUT_OF_FUEL` with fuel previously at/below `0` that brings fuel above
`0.5` resumes the run.  Every fuel collection logs `(before, after)`. -/
def pickOne (pts : List (ℚ × ℚ)) (g : GState) (p : Pickup) : GState × Pickup :=
  if p.taken = true then (g, p)
  else
    let r : ℚ := if p.kind = PKind.fuel then 185/100 else 135/100
    let hit := pts.any fun q =>
      decide ((p.x - q.1) * (p.x - q.1) + (p.y - q.2) * (p.y - q.2) < r * r)
    if hit = true then
      let p1 := { p with taken := true }
      match p.kind with
      | PKind.coin =>
        ({ g with s := { g.s with
            coins := g.s.coins + p.value,
            toast := Toast.coin p.value,
            toastT := 9/10,
            boost01 := min 1 (g.s.boost01 + 15/1000 * p.value) } }, p1)
      | PKind.fuel =>
        let before := g.s.fuel
        let fuel2 := min 100 (before + p.value)
        let g1 := { g with
          s := { g.s with
            fuel := fuel2,
            toast := Toast.fuelT p.value,
            toastT := 11/10,
            boost01 := min 1 (g.s.boost01 + 10/100) },
          fuelLog := g.fuelLog ++ [(before, fuel2)] }
        if g1.s.status = Status.OUT_OF_FUEL ∧ before ≤ 0 ∧ 1/2 < fuel2 then
          ({ g1 with
              s := { g1.s with status := Status.RUN },
              freeze := { t := 0, frozen := false } }, p1)
        else (g1, p1)
    else (g, p)

/-- The pickup loop over the remaining pickup list, in order. -/
def pickLoop (pts : List (ℚ × ℚ)) (g : GState) : List Pickup → GState × List Pickup
  | [] => (g, [])
  | p :: rest =>
    let gp := pickOne pts g p
    let grest := pickLoop pts gp.1 rest
    (grest.1, gp.2 :: grest.2)

/-- Pickup collection phase: query points are the chassis center, both
wheel centers and the head point. -/
def pickupPhase (obs : Obs) (g : GState) : GState :=
  let pts := [(obs.posX, obs.posY), (obs.wh1X, obs.wh1Y),
              (obs.wh2X, obs.wh2Y), (obs.headX, obs.headY)]
  let res := pickLoop pts g g.pickups
  { res.1 with pickups := res.2 }

/-- Crash rules while `RUN`: head point below local terrain (+0.08 margin),
or near-upside-down close to the ground while grounded.  On crash: zero
both throttle refs, reset the freeze tracker and the air state. -/
def crashPhase (obs : Obs) (g : GState) : GState :=
  if g.s.status = Status.RUN then
    let gyHead := sampleTrackY g.track obs.headX
    let pitchNorm := jsPitchNorm obs.angle
    let upside := 22/10 < |pitchNorm|
    let gyBody := sampleTrackY g.track obs.posX
    let nearGround := obs.posY < gyBody + 85/100
    let groundedAny := 0 < obs.w1 ∨ 0 < obs.w2
    if obs.headY < gyHead + 8/100 ∨ (upside ∧ nearGround ∧ groundedAny) then
      { g with
        s := { g.s with status := Status.CRASH, airtimeS := 0 },
        throttleTarget := 0,
        throttle := 0,
        freeze := { t := 0, frozen := false },
        air := { active := false, t := 0, acc := 0, lastAngle := 0, flipCount := 0 } }
    else g
  else g

/-- End-of-run settle tracking after `CRASH`, or `OUT_OF_FUEL` with an
empty tank: once settled for long enough, freeze in place.  (The damping
changes and the zeroed velocities act on the physics oracle.) -/
def freezePhase (obs : Obs) (g : GState) : GState :=
  if g.s.status = Status.CRASH ∨ (g.s.status = Status.OUT_OF_FUEL ∧ g.s.fuel ≤ 1/100) then
    if g.freeze.frozen = false then
      let settleT : ℚ := if g.s.status = Status.CRASH then 65/100 else 135/100
      let canFreeze := g.s.status = Status.CRASH ∨ obs.speed < 35/100
      let t2 := if canFreeze then g.freeze.t + DT else 0
      if settleT < t2 then
        { g with freeze := { t := t2, frozen := true } }
      else
        { g with freeze := { t := t2, frozen := false } }
    else g
  else g

/-- The state through the phases up to (but not including) the pickup
loop. -/
def prePickup (k : ℚ) (obs : Obs) (g : GState) : GState :=
  airPhase obs (derivPhase obs (tickPre k obs g))

/-- The state through the phases up to (but not including) the crash
check. -/
def preCrash (k : ℚ) (obs : Obs) (g : GState) : GState :=
  pickupPhase obs (prePickup k obs g)

/-- One fixed simulation tick (`stepGame`), as the composition of the
state-mutating phases in source order. -/
def stepGame (k : ℚ) (obs : Obs) (g : GState) : GState :=
  freezePhase obs (crashPhase obs (preCrash k obs g))

/-- The per-tick motor commands written to the wheel joints and the
chassis torques (lines 807-949): drive selection, boost multiplier,
torque curve with traction and pitch cut, braking with endo cut, ground
stabilization assist and air-control torque.  These values go to the
physics oracle and have no state feedback other than through the next
tick's `Obs`. -/
structure MotorCmd where
  motorSpeed : ℚ
  rearTorque : ℚ
  brakeTorque : ℚ
  stabTorque : ℚ
  airTorque : ℚ
deriving DecidableEq, Repr

/-- Computes the `MotorCmd` of one tick from the state after the fuel
phase (the point in source order where lines 807-949 run). -/
def motorCommand (obs : Obs) (g : GState) : MotorCmd :=
  let throttle := g.throttle
  let drive := if g.s.status = Status.OUT_OF_FUEL then min 0 throttle else throttle
  let boostActive := g.s.status = Status.RUN ∧ g.boostHeld = true ∧ 3/100 < g.s.boost01
  let forwardMax : ℚ := 26
  let reverseMax : ℚ := 10
  let rearGrounded := 0 < obs.w1
  let frontGrounded := 0 < obs.w2
  let groundedAny := rearGrounded ∨ frontGrounded
  let pitch := obs.anglePre
  let pitchAbs := |jsPitchNorm pitch|
  let pitchCut := clamp01 (1 - (max 0 (pitchAbs - 135/100)) / (65/100))
  let traction : ℚ := if rearGrounded then 1 else 35/100
  let msrtbt : ℚ × ℚ × ℚ :=
    match g.s.status with
    | Status.IDLE => (0, 10, 0)
    | Status.RUN =>
      if 2/100 < drive then
        let speedMul : ℚ := if boostActive then 115/100 else 1
        let ms := -(throttle * forwardMax * speedMul)
        let omega := |obs.wheelAVPre|
        let omega01 := clamp01 (omega / forwardMax)
        let powerDrop := 1 - 62/100 * omega01
        let boostMul : ℚ := if boostActive then 145/100 else 1
        (ms, (30 + (92 - 30) * throttle) * powerDrop * traction * pitchCut * boostMul, 0)
      else if drive < -(2/100) then
        let vx := obs.vxPre
        let brake := clamp01 (-drive)
        let endoCut := clamp01 (1 - (max 0 ((-pitch) - 55/100)) / (45/100))
        let bt := (88 * brake) * (55/100 + 45/100 * endoCut)
        if 8/10 < vx then (0, 0, bt)
        else (brake * reverseMax, 36 * brake * traction, bt)
      else (0, 7, 0)
    | Status.OUT_OF_FUEL =>
      if drive < -(2/100) then
        let vx := obs.vxPre
        let brake := clamp01 (-drive)
        let endoCut := clamp01 (1 - (max 0 ((-pitch) - 55/100)) / (45/100))
        let bt := (88 * brake) * (55/100 + 45/100 * endoCut)
        if vx ≤ 8/10 then (brake * reverseMax, 28 * brake * traction, bt)
        else (0, 0, bt)
      else (0, 0, 0)
    | Status.CRASH => (0, 0, 0)
  let stab : ℚ :=
    if g.s.status = Status.RUN ∧ groundedAny then
      let av := obs.avPre
      let vx := obs.vxPre
      let bothDown := rearGrounded ∧ frontGrounded
      let pedalEase := clamp01 (1 - |throttle|)
      let speedEase := clamp01 ((75/10 - |vx|) / (75/10))
      let assist := pedalEase * speedEase * (if bothDown then 1 else 35/100)
      clamp (((-28/10) * pitch - 8/10 * av) * assist) (-10) 10
    else 0
  let airT : ℚ :=
    if (g.s.status = Status.RUN ∨ g.s.status = Status.OUT_OF_FUEL) ∧ ¬groundedAny
    then 30 * throttle else 0
  { motorSpeed := msrtbt.1, rearTorque := msrtbt.2.1, brakeTorque := msrtbt.2.2,
    stabTorque := stab, airTorque := airT }

/-! ## Driver: applying the host inputs, running tick sequences -/

/-- Host inputs that may arrive before a tick: `setThrottle` (clamped to
`[-1, 1]`), `setBoost`, plus the physics observations of the tick. -/
structure TickIn where
  setT : Option ℚ
  setB : Option Bool
  obs : Obs

/-- Apply the host input calls preceding a tick. -/
def applyIn (i : TickIn) (g : GState) : GState :=
  let g1 := match i.setT with
    | some t => { g with throttleTarget := max (-1) (min 1 t) }
    | none => g
  match i.setB with
  | some b => { g1 with boostHeld := b }
  | none => g1

/-- One tick of the fixed-timestep loop: inputs, then `stepGame`. -/
def stepTick (k : ℚ) (i : TickIn) (g : GState) : GState :=
  stepGame k i.obs (applyIn i g)

/-- Run a whole sequence of ticks. -/
def runTicks (k : ℚ) (l : List TickIn) (g : GState) : GState :=
  l.foldl (fun g' i => stepTick k i g') g

/-! ## The terrain generator (`buildTrack`) -/

/-- Segment kinds of the terrain generator. -/
inductive SegKind where
  | flat
  | roll
  | hill
deriving DecidableEq, Repr

/-- `SLOPE_KIND_MUL` lookup table. -/
def SLOPE_KIND_MUL : SegKind → ℚ
  | SegKind.flat => 1
  | SegKind.roll => 108/100
  | SegKind.hill => 116/100

/-- The mutable state of the generation loop: RNG accumulator, cursor
`(x, y)`, previous step delta, current segment parameters, and the sample
lists built so far. -/
structure GenSt where
  rng : ℕ
  x : ℚ
  y : ℚ
  lastDy : ℚ
  kind : SegKind
  segLen : ℚ
  segT : ℚ
  y0 : ℚ
  y1 : ℚ
  bump : ℚ
  phase : ℚ
  xs : List ℚ
  ys : List ℚ

/-- `chooseSeg(d)`: pick the next segment kind (weights shifting toward
`hill` with distance), its length, phase, target height `y1` (pulled toward
a rising baseline) and bump amplitude.  RNG draws happen in source order:
kind (when `d ≥ 25`), length, phase, `y1`, bump, and the 35% hill
amplification roll. -/
def chooseSeg (d : ℚ) (st : GenSt) : GenSt :=
  let diff := clamp01 ((d - 2) / 160)
  let rk : ℕ × SegKind :=
    if d < 25 then (st.rng, SegKind.hill)
    else if d < 60 then
      let rv := mulberry32 st.rng
      (rv.1, if rv.2 < 15/100 then SegKind.roll else SegKind.hill)
    else
      let rv := mulberry32 st.rng
      let wFlat : ℚ := 8/100
      let wRoll : ℚ := 32/100
      let wHill : ℚ := 60/100 + 32/100 * diff
      let sum := wFlat + wRoll + wHill
      let r := rv.2 * sum
      (rv.1, if r < wFlat then SegKind.flat
             else if r < wFlat + wRoll then SegKind.roll
             else SegKind.hill)
  let kind := rk.2
  let rl := mulberry32 rk.1
  let segLen : ℚ :=
    match kind with
    | SegKind.flat => 10 + rl.2 * 18
    | SegKind.roll => 14 + rl.2 * 22
    | SegKind.hill => 18 + rl.2 * 44
  let y0 := st.y
  let rp := mulberry32 rl.1
  let phase := rp.2 * PI * 2
  let baseline := 95/100 + 35/100 * diff
  let basePull := (baseline - st.y) * (if kind = SegKind.hill then 55/100 else 80/100)
  let tail : ℕ × ℚ × ℚ :=
    match kind with
    | SegKind.flat =>
      let ra := mulberry32 rp.1
      (ra.1, y0 + basePull + (ra.2 * 2 - 1) * (10/100), 0)
    | SegKind.roll =>
      let ra := mulberry32 rp.1
      let rb := mulberry32 ra.1
      (rb.1, y0 + basePull + (ra.2 * 2 - 1) * (34/100 + 20/100 * diff),
       55/100 + rb.2 * (75/100 + 40/100 * diff))
    | SegKind.hill =>
      let ra := mulberry32 rp.1
      let rb := mulberry32 ra.1
      let bump0 := 160/100 + rb.2 * (235/100 + 175/100 * diff)
      let rc := mulberry32 rb.1
      (rc.1, y0 + basePull + (ra.2 * 2 - 1) * (110/100 + 95/100 * diff),
       if rc.2 < 30/100 + 20/100 * diff then bump0 * (135/100) else bump0)
  { st with rng := tail.1, kind := kind, segLen := segLen, segT := 0,
            y0 := y0, y1 := tail.2.1, bump := tail.2.2, phase := phase }

/-- One iteration of the generation loop: refresh the segment when it is
exhausted, build the target height (segment smoothstep + sinusoidal bump +
micro undulation), clamp the step by the local slope cap and the curvature
limiter, clamp the altitude band, and emit one sample. -/
def genStep (sinF : ℚ → ℚ) (st : GenSt) : GenSt :=
  let d := st.x - TRACK_X0
  let st1 := if st.segLen ≤ st.segT then chooseSeg d st else st
  let startEase := clamp01 (d / 5)
  let diff := clamp01 ((d - 10) / 220)
  let easy := 1 - clamp01 ((d - 2) / 40)
  let slopeKindMul := SLOPE_KIND_MUL st1.kind
  let slopeMaxBase := (28/100) * easy + (44/100 + 52/100 * diff) * (1 - easy)
  let slopeMax := clamp (slopeMaxBase * (40/100 + 60/100 * startEase) * slopeKindMul)
      (8/100) (65/100)
  let maxStep := slopeMax * TRACK_DX
  let curvMax := (20/1000 + 26/1000 * diff) * TRACK_DX
  let u := clamp01 (st1.segT / max (1/1000) st1.segLen)
  let su := smooth01 u
  let target0 := st1.y0 + (st1.y1 - st1.y0) * su
  let target1 :=
    match st1.kind with
    | SegKind.roll => target0 + st1.bump * sinF (u * PI * 2 + st1.phase)
    | SegKind.hill => target0 + st1.bump * sinF (u * PI)
    | SegKind.flat => target0
  let micro := (sinF ((st1.x + 123/10) * (85/100)) * (12/1000)
      + sinF ((st1.x - 71/10) * (195/100)) * (5/1000)) * startEase
  let target := target1 + micro
  let dy0 := clamp (target - st1.y) (-maxStep) maxStep
  let dy := clamp dy0 (st1.lastDy - curvMax) (st1.lastDy + curvMax)
  let y2 := clamp (st1.y + dy) (-(55/100)) (49/10)
  { st1 with
    lastDy := dy,
    y := y2,
    xs := st1.xs ++ [st1.x],
    ys := st1.ys ++ [y2],
    x := st.x + TRACK_DX,
    segT := st1.segT + TRACK_DX }

/-- The generation loop: `while (x <= TRACK_X1)`. -/
def genLoop (sinF : ℚ → ℚ) (st : GenSt) : GenSt :=
  if _h : st.x ≤ TRACK_X1 then genLoop sinF (genStep sinF st) else st
termination_by (⌊(TRACK_X1 - st.x) / TRACK_DX⌋ + 1).toNat
decreasing_by
  have hx : (genStep sinF st).x = st.x + TRACK_DX := rfl
  rw [hx]
  have hdx : (0 : ℚ) < TRACK_DX := by norm_num [TRACK_DX]
  have h1 : (0 : ℚ) ≤ TRACK_X1 - st.x := by linarith
  have h2 : (0 : ℚ) ≤ (TRACK_X1 - st.x) / TRACK_DX := by positivity
  have h3 : (0 : ℤ) ≤ ⌊(TRACK_X1 - st.x) / TRACK_DX⌋ := Int.floor_nonneg.mpr h2
  have h4 : (TRACK_X1 - (st.x + TRACK_DX)) / TRACK_DX
      = (TRACK_X1 - st.x) / TRACK_DX - 1 := by
    field_simp
    ring
  have h5 : ⌊(TRACK_X1 - (st.x + TRACK_DX)) / TRACK_DX⌋
      = ⌊(TRACK_X1 - st.x) / TRACK_DX⌋ - 1 := by
    rw [h4]
    exact_mod_cast Int.floor_sub_int ((TRACK_X1 - st.x) / TRACK_DX) 1
  omega

/-- Inner sweep of one in-place 3-point smoothing pass.  `prev` is the
already-updated value at index `i - 1`; the last element is untouched. -/
def smoothGo (prev : ℚ) : List ℚ → List ℚ
  | [] => []
  | [last] => [last]
  | c :: n :: rest =>
    let v := c * (50/100) + (prev + n) * (25/100)
    v :: smoothGo v (n :: rest)

/-- One in-place 3-point smoothing pass over `ys` (indices `1..len-2`). -/
def smoothPass : List ℚ → List ℚ
  | [] => []
  | h :: t => h :: smoothGo h t

/-- `Math.round` (round half toward positive infinity). -/
def jsRound (q : ℚ) : ℤ := ⌊q + 1/2⌋

/-- Start-pad blending: flatten `ys` to the pad height on
`[PAD_X0, PAD_X1] = [-4, 8]`, with a 3-meter smoothstep blend on each
side. -/
def padBlend (xs ys : List ℚ) (yPad : ℚ) : List ℚ :=
  (xs.zip ys).map fun xy =>
    let xx := xy.1
    let yy := xy.2
    if -4 ≤ xx ∧ xx ≤ 8 then yPad
    else if -4 - 3 < xx ∧ xx < -4 then
      let t := smooth01 ((xx - (-4 - 3)) / 3)
      yy * (1 - t) + yPad * t
    else if 8 < xx ∧ xx < 8 + 3 then
      let t := smooth01 ((xx - 8) / 3)
      yPad * (1 - t) + yy * t
    else yy

/-- `buildTrack(seed)`: the full deterministic terrain pipeline — seeded
segment generation under slope/curvature clamps, two smoothing passes, and
start-pad blending.  `sinF` stands for the host's `Math.sin`
(implementation-approximated per ECMAScript); the output is a function of
`(sinF, seed)` only — the RNG stream is `mulberry32`, threaded explicitly,
and no other entropy enters. -/
def buildTrack (sinF : ℚ → ℚ) (seed : ℕ) : Track :=
  let r0 := mulberry32 seed
  let st0 : GenSt := {
    rng := r0.1, x := TRACK_X0, y := 86/100, lastDy := 0,
    kind := SegKind.flat, segLen := 24, segT := 0,
    y0 := 86/100, y1 := 86/100, bump := 0, phase := r0.2 * PI * 2,
    xs := [], ys := [] }
  let st1 := chooseSeg 0 st0
  let stF := genLoop sinF st1
  let ys1 := smoothPass (smoothPass stF.ys)
  let i0 : ℕ := (max 0 (min ((ys1.length : ℤ) - 1)
      (jsRound ((0 - TRACK_X0) / TRACK_DX)))).toNat
  let yPad := ys1.getD i0 0
  let ys2 := padBlend stF.xs ys1 yPad
  { xs := stF.xs, ys := ys2 }


/-! ## Verification-side definitions -/

/-- A track whose `xs` are the uniform sample grid starting at `TRACK_X0`
with spacing `TRACK_DX` (as `buildTrack` produces), with at least two
samples and parallel `ys`. -/
def OnGrid (tr : Track) : Prop :=
  2 ≤ tr.xs.length ∧ tr.ys.length = tr.xs.length ∧
    ∀ i : ℕ, i < tr.xs.length → tr.xs.getD i 0 = TRACK_X0 + i * TRACK_DX

/-- Fuel well-formedness: the gauge is within `[0, 100]` and all pickup
values are nonnegative (as the seeded layout produces: coins are worth 1,
fuel cans 35). -/
def FuelWF (g : GState) : Prop :=
  0 ≤ g.s.fuel ∧ g.s.fuel ≤ 100 ∧ ∀ p ∈ g.pickups, 0 ≤ p.value

/-- The legal status edges of the run state machine, with their guards.
`thr` is the tick's smoothed throttle; `log` is the tick's final fuel
collection log, so the `OUT_OF_FUEL → RUN` guard refers to the actual
refuel event of the tick. -/
inductive StatusEdge (thr : ℚ) (log : List (ℚ × ℚ)) : Status → Status → Prop where
  | idle_run : 2/100 < |thr| → StatusEdge thr log Status.IDLE Status.RUN
  | run_crash : StatusEdge thr log Status.RUN Status.CRASH
  | run_out : StatusEdge thr log Status.RUN Status.OUT_OF_FUEL
  | out_run (fb fa : ℚ) : (fb, fa) ∈ log → fb ≤ 0 → 1/2 < fa →
      StatusEdge thr log Status.OUT_OF_FUEL Status.RUN

/-- A neutral physics observation: every oracle reading is zero. -/
def obs0 : Obs :=
  { vxPre := 0, avPre := 0, anglePre := 0, wheelAVPre := 0, w1 := 0, w2 := 0,
    posX := 0, posY := 0, angle := 0, vx := 0, vy := 0, speed := 0,
    wheelAVPost := 0, headX := 0, headY := 0, wh1X := 0, wh1Y := 0,
    wh2X := 0, wh2Y := 0, bestM := 0 }

/-- The freshly reset session state (`reset()`): fuel 100, `IDLE`, cleared
trackers; for witness scenarios the pickup list and track are left empty. -/
def initG : GState :=
  { s := { distanceM := 0, bestM := 0, coins := 0, fuel := 100,
           status := Status.IDLE, rpm01 := 0, boost01 := 0, speedKmh := 0,
           airtimeS := 0, flips := 0, toast := Toast.empty, toastT := 0 },
    throttleTarget := 0, throttle := 0, boostHeld := false,
    air := { active := false, t := 0, acc := 0, lastAngle := 0, flipCount := 0 },
    freeze := { t := 0, frozen := false },
    pickups := [], track := { xs := [], ys := [] },
    flipEvents := [], fuelLog := [] }

/-- Witness scenario for the crash claim: a mid-run state on a flat
two-sample track. -/
def gC8 : GState :=
  { initG with
    s := { initG.s with status := Status.RUN, fuel := 50 },
    track := { xs := [-40, 1800], ys := [0, 0] } }

/-- Witness observation for the crash claim: grounded, head at
`(-50, -1)` — below the terrain height there. -/
def obsC8 : Obs := { obs0 with w1 := 1, headX := -50, headY := -1 }

/-- Witness scenario for the no-resume claim: an `OUT_OF_FUEL` state with
an empty tank, mid-jump with `2π - π` of rotation still to be counted, and
a fuel can at the origin.  The tick's flip bonus lifts fuel to 3 before the
pickup loop runs. -/
def gC10 : GState :=
  { initG with
    s := { initG.s with status := Status.OUT_OF_FUEL, fuel := 0 },
    air := { active := true, t := 2 * DT, acc := PI, lastAngle := PI, flipCount := 0 },
    pickups := [{ kind := PKind.fuel, x := 0, y := 0, value := 35, taken := false }],
    track := { xs := [-40, 1800], ys := [-100, -100] } }

/-- Witness observation for the no-resume claim: airborne, chassis rotated
to `2π`. -/
def obsC10 : Obs := { obs0 with angle := 2 * PI }

/-- Flat deep track for the flip scenario. -/
def c7track : Track := { xs := [-40, 1800], ys := [-100, -100] }

/-- Airborne observation for the flip scenario: both wheels off the
ground, chassis high above the terrain, rotated to angle `a`. -/
def c7obs (a : ℚ) : Obs :=
  { obs0 with
    posX := -50
    posY := 10
    angle := a
    headX := -50
    headY := 10
    wh1X := -50
    wh1Y := 10
    wh2X := -50
    wh2Y := 10 }

/-- Start state of the flip scenario: mid-run with half a tank. -/
def c7g0 : GState :=
  { initG with
    s := { initG.s with status := Status.RUN, fuel := 50 },
    track := c7track }

/-- The flip scenario: five airborne ticks during which the chassis
rotates continuously by `π` per tick, accumulating exactly `4π`. -/
def c7ticks : List TickIn :=
  [{ setT := none, setB := none, obs := c7obs 0 },
   { setT := none, setB := none, obs := c7obs PI },
   { setT := none, setB := none, obs := c7obs (2 * PI) },
   { setT := none, setB := none, obs := c7obs (3 * PI) },
   { setT := none, setB := none, obs := c7obs (4 * PI) }]

/-- The state at the end of the flip scenario. -/
def c7final : GState := runTicks (1/10) c7ticks c7g0

/-! ## Theorems -/

theorem pi_pos : (0 : ℚ) < PI := by norm_num [PI]

theorem unwrapHi_le (d : ℚ) : unwrapHi d ≤ PI := by
  rw [unwrapHi]
  split
  · exact unwrapHi_le (d - 2 * PI)
  · linarith [not_lt.mp (by assumption : ¬ PI < d)]
termination_by (⌊(d - PI) / (2 * PI)⌋ + 1).toNat
decreasing_by
  have hpi : (0 : ℚ) < PI := by norm_num [PI]
  have h1 : (0 : ℚ) < d - PI := by linarith
  have h2 : (0 : ℚ) ≤ (d - PI) / (2 * PI) := by positivity
  have h3 : (0 : ℤ) ≤ ⌊(d - PI) / (2 * PI)⌋ := Int.floor_nonneg.mpr h2
  have h4 : (d - 2 * PI - PI) / (2 * PI) = (d - PI) / (2 * PI) - 1 := by
    field_simp
    ring
  have h5 : ⌊(d - 2 * PI - PI) / (2 * PI)⌋ = ⌊(d - PI) / (2 * PI)⌋ - 1 := by
    rw [h4]
    exact_mod_cast Int.floor_sub_int ((d - PI) / (2 * PI)) 1
  omega

theorem unwrapLo_ge (d : ℚ) : -PI ≤ unwrapLo d := by
  rw [unwrapLo]
  split
  · exact unwrapLo_ge (d + 2 * PI)
  · linarith [not_lt.mp (by assumption : ¬ d < -PI)]
termination_by (⌊(-PI - d) / (2 * PI)⌋ + 1).toNat
decreasing_by
  have hpi : (0 : ℚ) < PI := by norm_num [PI]
  have h1 : (0 : ℚ) < -PI - d := by linarith
  have h2 : (0 : ℚ) ≤ (-PI - d) / (2 * PI) := by positivity
  have h3 : (0 : ℤ) ≤ ⌊(-PI - d) / (2 * PI)⌋ := Int.floor_nonneg.mpr h2
  have h4 : (-PI - (d + 2 * PI)) / (2 * PI) = (-PI - d) / (2 * PI) - 1 := by
    field_simp
    ring
  have h5 : ⌊(-PI - (d + 2 * PI)) / (2 * PI)⌋ = ⌊(-PI - d) / (2 * PI)⌋ - 1 := by
    rw [h4]
    exact_mod_cast Int.floor_sub_int ((-PI - d) / (2 * PI)) 1
  omega

theorem unwrapLo_le (d : ℚ) (h : d ≤ PI) : unwrapLo d ≤ PI := by
  rw [unwrapLo]
  split
  · have hpi : (0 : ℚ) < PI := by norm_num [PI]
    exact unwrapLo_le (d + 2 * PI) (by linarith [(by assumption : d < -PI)])
  · exact h
termination_by (⌊(-PI - d) / (2 * PI)⌋ + 1).toNat
decreasing_by
  have hpi : (0 : ℚ) < PI := by norm_num [PI]
  have h1 : (0 : ℚ) < -PI - d := by linarith
  have h2 : (0 : ℚ) ≤ (-PI - d) / (2 * PI) := by positivity
  have h3 : (0 : ℤ) ≤ ⌊(-PI - d) / (2 * PI)⌋ := Int.floor_nonneg.mpr h2
  have h4 : (-PI - (d + 2 * PI)) / (2 * PI) = (-PI - d) / (2 * PI) - 1 := by
    field_simp
    ring
  have h5 : ⌊(-PI - (d + 2 * PI)) / (2 * PI)⌋ = ⌊(-PI - d) / (2 * PI)⌋ - 1 := by
    rw [h4]
    exact_mod_cast Int.floor_sub_int ((-PI - d) / (2 * PI)) 1
  omega

/-- The unwrapped per-tick angle delta always lies in `[-π, π]`. -/
theorem unwrapD_mem (d : ℚ) : -PI ≤ unwrapD d ∧ unwrapD d ≤ PI :=
  ⟨unwrapLo_ge (unwrapHi d), unwrapLo_le (unwrapHi d) (unwrapHi_le d)⟩

/-- If the delta is already in `[-π, π]` the unwrap is the identity. -/
theorem unwrapD_of_mem (d : ℚ) (h1 : -PI ≤ d) (h2 : d ≤ PI) : unwrapD d = d := by
  have ha : unwrapHi d = d := by
    rw [unwrapHi]
    exact dif_neg (not_lt.mpr h2)
  have hb : unwrapLo d = d := by
    rw [unwrapLo]
    exact dif_neg (not_lt.mpr h1)
  rw [unwrapD, ha, hb]

/-! ### Per-phase projection lemmas -/

theorem smoothPhase_s (k : ℚ) (g : GState) : (smoothPhase k g).s = g.s := rfl

theorem smoothPhase_track (k : ℚ) (g : GState) : (smoothPhase k g).track = g.track := rfl

theorem smoothPhase_pickups (k : ℚ) (g : GState) :
    (smoothPhase k g).pickups = g.pickups := rfl

theorem smoothPhase_fuelLog (k : ℚ) (g : GState) :
    (smoothPhase k g).fuelLog = g.fuelLog := rfl

theorem idlePhase_proj (g : GState) :
    (idlePhase g).s.distanceM = g.s.distanceM ∧
    (idlePhase g).s.fuel = g.s.fuel ∧
    (idlePhase g).throttle = g.throttle ∧
    (idlePhase g).track = g.track ∧
    (idlePhase g).pickups = g.pickups ∧
    (idlePhase g).fuelLog = g.fuelLog := by
  unfold idlePhase
  split <;> exact ⟨rfl, rfl, rfl, rfl, rfl, rfl⟩

theorem idlePhase_status (g : GState) :
    (idlePhase g).s.status = g.s.status ∨
    (g.s.status = Status.IDLE ∧ 2/100 < |g.throttle| ∧
      (idlePhase g).s.status = Status.RUN) := by
  unfold idlePhase
  split
  · next h => exact Or.inr ⟨h.1, h.2, rfl⟩
  · exact Or.inl rfl

theorem fuelPhase_proj (obs : Obs) (g : GState) :
    (fuelPhase obs g).s.distanceM = g.s.distanceM ∧
    (fuelPhase obs g).throttle = g.throttle ∧
    (fuelPhase obs g).track = g.track ∧
    (fuelPhase obs g).pickups = g.pickups ∧
    (fuelPhase obs g).fuelLog = g.fuelLog := by
  unfold fuelPhase
  dsimp only
  split
  · split <;> exact ⟨rfl, rfl, rfl, rfl, rfl⟩
  · exact ⟨rfl, rfl, rfl, rfl, rfl⟩

theorem fuelPhase_status (obs : Obs) (g : GState) :
    (fuelPhase obs g).s.status = g.s.status ∨
    (g.s.status = Status.RUN ∧ (fuelPhase obs g).s.status = Status.OUT_OF_FUEL) := by
  unfold fuelPhase
  dsimp only
  split
  · next h =>
    split
    · exact Or.inr ⟨h, rfl⟩
    · exact Or.inl rfl
  · exact Or.inl rfl

theorem boostSpendPhase_proj (g : GState) :
    (boostSpendPhase g).s.distanceM = g.s.distanceM ∧
    (boostSpendPhase g).s.fuel = g.s.fuel ∧
    (boostSpendPhase g).s.status = g.s.status ∧
    (boostSpendPhase g).throttle = g.throttle ∧
    (boostSpendPhase g).throttleTarget = g.throttleTarget ∧
    (boostSpendPhase g).track = g.track ∧
    (boostSpendPhase g).pickups = g.pickups ∧
    (boostSpendPhase g).fuelLog = g.fuelLog := by
  unfold boostSpendPhase
  dsimp only
  split <;> exact ⟨rfl, rfl, rfl, rfl, rfl, rfl, rfl, rfl⟩

theorem airChargePhase_proj (obs : Obs) (g : GState) :
    (airChargePhase obs g).s.distanceM = g.s.distanceM ∧
    (airChargePhase obs g).s.fuel = g.s.fuel ∧
    (airChargePhase obs g).s.status = g.s.status ∧
    (airChargePhase obs g).throttle = g.throttle ∧
    (airChargePhase obs g).throttleTarget = g.throttleTarget ∧
    (airChargePhase obs g).track = g.track ∧
    (airChargePhase obs g).pickups = g.pickups ∧
    (airChargePhase obs g).fuelLog = g.fuelLog := by
  unfold airChargePhase
  dsimp only
  split <;> exact ⟨rfl, rfl, rfl, rfl, rfl, rfl, rfl, rfl⟩

theorem derivPhase_proj (obs : Obs) (g : GState) :
    (derivPhase obs g).s.fuel = g.s.fuel ∧
    (derivPhase obs g).s.status = g.s.status ∧
    (derivPhase obs g).throttle = g.throttle ∧
    (derivPhase obs g).throttleTarget = g.throttleTarget ∧
    (derivPhase obs g).track = g.track ∧
    (derivPhase obs g).pickups = g.pickups ∧
    (derivPhase obs g).fuelLog = g.fuelLog ∧
    (derivPhase obs g).air = g.air := by
  unfold derivPhase
  dsimp only
  split <;> exact ⟨rfl, rfl, rfl, rfl, rfl, rfl, rfl, rfl⟩

theorem derivPhase_distanceM (obs : Obs) (g : GState) :
    (derivPhase obs g).s.distanceM = max g.s.distanceM obs.posX := by
  unfold derivPhase
  dsimp only
  split <;> rfl

theorem airPhase_proj (obs : Obs) (g : GState) :
    (airPhase obs g).s.distanceM = g.s.distanceM ∧
    (airPhase obs g).s.status = g.s.status ∧
    (airPhase obs g).throttle = g.throttle ∧
    (airPhase obs g).throttleTarget = g.throttleTarget ∧
    (airPhase obs g).track = g.track ∧
    (airPhase obs g).pickups = g.pickups ∧
    (airPhase obs g).fuelLog = g.fuelLog := by
  unfold airPhase
  dsimp only
  split
  · split <;> split <;> exact ⟨rfl, rfl, rfl, rfl, rfl, rfl, rfl⟩
  · exact ⟨rfl, rfl, rfl, rfl, rfl, rfl, rfl⟩

theorem crashPhase_status (obs : Obs) (g : GState) :
    (crashPhase obs g).s.status = g.s.status ∨
    (g.s.status = Status.RUN ∧ (crashPhase obs g).s.status = Status.CRASH) := by
  unfold crashPhase
  dsimp only
  split
  · next h =>
    split
    · exact Or.inr ⟨h, rfl⟩
    · exact Or.inl rfl
  · exact Or.inl rfl

theorem crashPhase_proj (obs : Obs) (g : GState) :
    (crashPhase obs g).s.distanceM = g.s.distanceM ∧
    (crashPhase obs g).s.fuel = g.s.fuel ∧
    (crashPhase obs g).track = g.track ∧
    (crashPhase obs g).pickups = g.pickups ∧
    (crashPhase obs g).fuelLog = g.fuelLog := by
  unfold crashPhase
  dsimp only
  split
  · split <;> exact ⟨rfl, rfl, rfl, rfl, rfl⟩
  · exact ⟨rfl, rfl, rfl, rfl, rfl⟩

theorem freezePhase_proj (obs : Obs) (g : GState) :
    (freezePhase obs g).s = g.s ∧
    (freezePhase obs g).throttle = g.throttle ∧
    (freezePhase obs g).throttleTarget = g.throttleTarget ∧
    (freezePhase obs g).air = g.air ∧
    (freezePhase obs g).track = g.track ∧
    (freezePhase obs g).pickups = g.pickups ∧
    (freezePhase obs g).fuelLog = g.fuelLog := by
  unfold freezePhase
  dsimp only
  repeat' split
  all_goals exact ⟨rfl, rfl, rfl, rfl, rfl, rfl, rfl⟩

theorem pickOne_proj (pts : List (ℚ × ℚ)) (g : GState) (p : Pickup) :
    (pickOne pts g p).1.s.distanceM = g.s.distanceM ∧
    (pickOne pts g p).1.throttle = g.throttle ∧
    (pickOne pts g p).1.throttleTarget = g.throttleTarget ∧
    (pickOne pts g p).1.track = g.track ∧
    (pickOne pts g p).1.air = g.air ∧
    (pickOne pts g p).1.pickups = g.pickups := by
  unfold pickOne
  dsimp only
  repeat' split
  all_goals exact ⟨rfl, rfl, rfl, rfl, rfl, rfl⟩

theorem pickLoop_proj (pts : List (ℚ × ℚ)) (ps : List Pickup) (g : GState) :
    (pickLoop pts g ps).1.s.distanceM = g.s.distanceM ∧
    (pickLoop pts g ps).1.throttle = g.throttle ∧
    (pickLoop pts g ps).1.throttleTarget = g.throttleTarget ∧
    (pickLoop pts g ps).1.track = g.track ∧
    (pickLoop pts g ps).1.air = g.air := by
  induction ps generalizing g with
  | nil => exact ⟨rfl, rfl, rfl, rfl, rfl⟩
  | cons p rest ih =>
    have h1 := pickOne_proj pts g p
    have h2 := ih (pickOne pts g p).1
    simp only [pickLoop]
    exact ⟨h2.1.trans h1.1, h2.2.1.trans h1.2.1, h2.2.2.1.trans h1.2.2.1,
      h2.2.2.2.1.trans h1.2.2.2.1, h2.2.2.2.2.trans h1.2.2.2.2.1⟩

theorem pickupPhase_proj (obs : Obs) (g : GState) :
    (pickupPhase obs g).s.distanceM = g.s.distanceM ∧
    (pickupPhase obs g).throttle = g.throttle ∧
    (pickupPhase obs g).throttleTarget = g.throttleTarget ∧
    (pickupPhase obs g).track = g.track ∧
    (pickupPhase obs g).air = g.air := by
  unfold pickupPhase
  exact pickLoop_proj _ _ _

/-! ### Claim C6: distance monotonicity -/

theorem tickPre_distanceM (k : ℚ) (obs : Obs) (g : GState) :
    (tickPre k obs g).s.distanceM = g.s.distanceM := by
  unfold tickPre
  rw [(airChargePhase_proj _ _).1, (boostSpendPhase_proj _).1,
    (fuelPhase_proj _ _).1, (idlePhase_proj _).1, smoothPhase_s]

/-- Claim C6: on every tick of `stepGame`, `distanceM` after the tick is at
least its value before the tick — it is updated as the maximum of its old
value and the chassis x position, so it never decreases even when the
chassis moves backward. -/
theorem distanceM_monotone (k : ℚ) (obs : Obs) (g : GState) :
    g.s.distanceM ≤ (stepGame k obs g).s.distanceM := by
  unfold stepGame preCrash prePickup
  rw [(freezePhase_proj _ _).1, (crashPhase_proj _ _).1, (pickupPhase_proj _ _).1,
    (airPhase_proj _ _).1, derivPhase_distanceM, tickPre_distanceM]
  exact le_max_left _ _

/-! ### Claim C4: terrain determinism -/

/-- Claim C4: `buildTrack` is a deterministic pure function of its seed
(for the host's fixed `Math.sin`): two evaluations at equal seeds yield
identical `xs`/`ys` sequences.  The embedding threads the `mulberry32`
stream explicitly and admits no other entropy, so determinism holds by
construction. -/
theorem buildTrack_deterministic (sinF : ℚ → ℚ) (s1 s2 : ℕ) (h : s1 = s2) :
    buildTrack sinF s1 = buildTrack sinF s2 := by
  rw [h]

/-- Witness for C4 at the default seed 1337. -/
theorem buildTrack_deterministic_witness :
    1337 = 1337 ∧ buildTrack (fun _ => 0) 1337 = buildTrack (fun _ => 0) 1337 :=
  ⟨rfl, buildTrack_deterministic (fun _ => 0) 1337 1337 rfl⟩

/-! ### Claim C9: angle normalization -/

theorem jsPitchNorm_neg_two_pi : jsPitchNorm (-2 * PI) = -2 * PI := by
  unfold jsPitchNorm jsMod ratTrunc
  have hpi : (0 : ℚ) < PI := pi_pos
  have h1 : (-2 * PI + PI) / (2 * PI) = -(1/2) := by
    field_simp
    ring
  rw [h1]
  rw [if_neg (by norm_num : ¬ (0:ℚ) ≤ -(1/2))]
  have h3 : ⌈(-(1/2) : ℚ)⌉ = 0 := by
    rw [Int.ceil_eq_iff]
    norm_num
  rw [h3]
  push_cast
  ring

/-- Claim C9 counterexample: the normalization expression
`((pitch + π) % (2π)) - π` does NOT land in `(-π, π]` for every input
angle: at `pitch = -2π` (an angle below `-π`) it returns `-2π`, because the
JavaScript remainder keeps the dividend's sign. -/
theorem jsPitchNorm_not_normalized_counterexample :
    ¬(-PI < jsPitchNorm (-2 * PI) ∧ jsPitchNorm (-2 * PI) ≤ PI) := by
  rw [jsPitchNorm_neg_two_pi]
  intro h
  have h1 := h.1
  rw [PI] at h1
  norm_num at h1

/-- Claim C9 (amended): for every input angle at or above `-π` — which is
what both comparison sites (the pitch-cut magnitude and the upside-down
crash check) receive in the intended regime — the normalization expression
yields a value in `[-π, π)`.  For angles below `-π` it does not normalize
at all (see the counterexample), and the boundary it reaches is `-π`
inclusive / `π` exclusive, not `(-π, π]`. -/
theorem jsPitchNorm_range (pitch : ℚ) (h : -PI ≤ pitch) :
    -PI ≤ jsPitchNorm pitch ∧ jsPitchNorm pitch < PI := by
  unfold jsPitchNorm jsMod ratTrunc
  have hpi : (0 : ℚ) < PI := pi_pos
  have hy : (0 : ℚ) < 2 * PI := by linarith
  have hq : (0 : ℚ) ≤ (pitch + PI) / (2 * PI) := by
    apply div_nonneg (by linarith) (by linarith)
  rw [if_pos hq]
  have key : pitch + PI - 2 * PI * (⌊(pitch + PI) / (2 * PI)⌋ : ℚ)
      = 2 * PI * Int.fract ((pitch + PI) / (2 * PI)) := by
    rw [Int.fract]
    field_simp
  have hf0 : (0 : ℚ) ≤ Int.fract ((pitch + PI) / (2 * PI)) := Int.fract_nonneg _
  have hf1 : Int.fract ((pitch + PI) / (2 * PI)) < 1 := Int.fract_lt_one _
  constructor
  · have hge : (0 : ℚ) ≤ 2 * PI * Int.fract ((pitch + PI) / (2 * PI)) :=
      mul_nonneg (by linarith) hf0
    linarith [key]
  · have hlt : 2 * PI * Int.fract ((pitch + PI) / (2 * PI)) < 2 * PI * 1 :=
      mul_lt_mul_of_pos_left hf1 hy
    linarith [key]

/-- Witness for the amended C9 at `pitch = 0`. -/
theorem jsPitchNorm_range_witness :
    -PI ≤ (0 : ℚ) ∧ (-PI ≤ jsPitchNorm 0 ∧ jsPitchNorm 0 < PI) :=
  ⟨by norm_num [PI], jsPitchNorm_range 0 (by norm_num [PI])⟩

/-! ### Claim C5: height query clamping and interpolation -/

/-- Claim C5: on every track whose `xs` are the uniform generation grid
(with at least two samples), `sampleTrackY` returns the first sample height
for `x` at or below `x₀`, the last sample height for `x` at or above `x₁`,
and for `x` strictly in between returns the linear interpolation of the two
neighbouring samples (it never extrapolates beyond the endpoint heights). -/
theorem sampleTrackY_spec (tr : Track) (x : ℚ) (hg : OnGrid tr) :
    (x ≤ tr.xs.getD 0 0 → sampleTrackY tr x = tr.ys.getD 0 0) ∧
    (tr.xs.getD (tr.xs.length - 1) 0 ≤ x →
      sampleTrackY tr x = tr.ys.getD (tr.ys.length - 1) 0) ∧
    (tr.xs.getD 0 0 < x → x < tr.xs.getD (tr.xs.length - 1) 0 →
      ∃ j : ℕ, j + 1 < tr.xs.length ∧ tr.xs.getD j 0 ≤ x ∧ x ≤ tr.xs.getD (j + 1) 0 ∧
        sampleTrackY tr x = tr.ys.getD j 0 + (tr.ys.getD (j + 1) 0 - tr.ys.getD j 0) *
          ((x - tr.xs.getD j 0) / (tr.xs.getD (j + 1) 0 - tr.xs.getD j 0))) := by
  obtain ⟨hlen, _hyslen, hgrid⟩ := hg
  have hx0 : tr.xs.getD 0 0 = TRACK_X0 := by
    have h := hgrid 0 (by omega)
    simpa using h
  have hlast : tr.xs.getD (tr.xs.length - 1) 0
      = TRACK_X0 + ((tr.xs.length - 1 : ℕ) : ℚ) * TRACK_DX :=
    hgrid (tr.xs.length - 1) (by omega)
  have hcast : ((tr.xs.length - 1 : ℕ) : ℚ) = (tr.xs.length : ℚ) - 1 := by
    have h1 : 1 ≤ tr.xs.length := by omega
    push_cast [h1]
    ring
  have hdx : (0 : ℚ) < TRACK_DX := by norm_num [TRACK_DX]
  have hlenq : (2 : ℚ) ≤ (tr.xs.length : ℚ) := by exact_mod_cast hlen
  have h0last : tr.xs.getD 0 0 < tr.xs.getD (tr.xs.length - 1) 0 := by
    rw [hx0, hlast, hcast, TRACK_DX]
    nlinarith [hlenq]
  refine ⟨fun h => ?_, fun h => ?_, fun h1 h2 => ?_⟩
  · unfold sampleTrackY
    rw [if_pos h]
  · unfold sampleTrackY
    rw [if_neg (not_le.mpr (lt_of_lt_of_le h0last h)), if_pos h]
  · unfold sampleTrackY
    rw [if_neg (not_le.mpr h1), if_neg (not_le.mpr h2)]
    dsimp only
    have hxpos : 0 < (x - TRACK_X0) / TRACK_DX := by
      apply div_pos _ hdx
      rw [hx0] at h1
      linarith
    have hi0 : 0 ≤ ⌊(x - TRACK_X0) / TRACK_DX⌋ :=
      Int.floor_nonneg.mpr (le_of_lt hxpos)
    have hiub : ⌊(x - TRACK_X0) / TRACK_DX⌋ < (tr.xs.length : ℤ) - 1 := by
      rw [Int.floor_lt]
      rw [hlast, hcast] at h2
      push_cast
      rw [div_lt_iff₀ hdx]
      rw [TRACK_DX] at h2 ⊢
      linarith
    have hclamp : max 0 (min ((tr.xs.length : ℤ) - 2) ⌊(x - TRACK_X0) / TRACK_DX⌋)
        = ⌊(x - TRACK_X0) / TRACK_DX⌋ := by omega
    rw [hclamp]
    have htn : ((⌊(x - TRACK_X0) / TRACK_DX⌋.toNat : ℕ) : ℚ)
        = ((⌊(x - TRACK_X0) / TRACK_DX⌋ : ℤ) : ℚ) := by
      exact_mod_cast congrArg (fun z : ℤ => (z : ℚ)) (Int.toNat_of_nonneg hi0)
    refine ⟨⌊(x - TRACK_X0) / TRACK_DX⌋.toNat, by omega, ?_, ?_, rfl⟩
    · rw [hgrid _ (by omega), htn]
      have hfl : ((⌊(x - TRACK_X0) / TRACK_DX⌋ : ℤ) : ℚ) ≤ (x - TRACK_X0) / TRACK_DX :=
        Int.floor_le _
      rw [le_div_iff₀ hdx] at hfl
      linarith
    · rw [hgrid _ (by omega)]
      push_cast [htn]
      have hfl : (x - TRACK_X0) / TRACK_DX < ((⌊(x - TRACK_X0) / TRACK_DX⌋ : ℤ) : ℚ) + 1 :=
        Int.lt_floor_add_one _
      rw [div_lt_iff₀ hdx] at hfl
      linarith

/-- Witness for C5 on the two-sample grid track
`xs = [-40, -39.75]`, `ys = [3, 5]` at the query `x = -39.9`. -/
theorem sampleTrackY_spec_witness :
    OnGrid { xs := [-40, -159/4], ys := [3, 5] } ∧
    ((-39/1 - 9/10 : ℚ) ≤ ({ xs := [-40, -159/4], ys := [3, 5] } : Track).xs.getD 0 0 →
      sampleTrackY { xs := [-40, -159/4], ys := [3, 5] } (-39/1 - 9/10)
        = ({ xs := [-40, -159/4], ys := [3, 5] } : Track).ys.getD 0 0) ∧
    (({ xs := [-40, -159/4], ys := [3, 5] } : Track).xs.getD
        (({ xs := [-40, -159/4], ys := [3, 5] } : Track).xs.length - 1) 0 ≤ (-39/1 - 9/10 : ℚ) →
      sampleTrackY { xs := [-40, -159/4], ys := [3, 5] } (-39/1 - 9/10)
        = ({ xs := [-40, -159/4], ys := [3, 5] } : Track).ys.getD
            (({ xs := [-40, -159/4], ys := [3, 5] } : Track).ys.length - 1) 0) ∧
    (({ xs := [-40, -159/4], ys := [3, 5] } : Track).xs.getD 0 0 < (-39/1 - 9/10 : ℚ) →
      (-39/1 - 9/10 : ℚ) < ({ xs := [-40, -159/4], ys := [3, 5] } : Track).xs.getD
        (({ xs := [-40, -159/4], ys := [3, 5] } : Track).xs.length - 1) 0 →
      ∃ j : ℕ, j + 1 < ({ xs := [-40, -159/4], ys := [3, 5] } : Track).xs.length ∧
        ({ xs := [-40, -159/4], ys := [3, 5] } : Track).xs.getD j 0 ≤ (-39/1 - 9/10 : ℚ) ∧
        (-39/1 - 9/10 : ℚ) ≤ ({ xs := [-40, -159/4], ys := [3, 5] } : Track).xs.getD (j + 1) 0 ∧
        sampleTrackY { xs := [-40, -159/4], ys := [3, 5] } (-39/1 - 9/10)
          = ({ xs := [-40, -159/4], ys := [3, 5] } : Track).ys.getD j 0 +
            (({ xs := [-40, -159/4], ys := [3, 5] } : Track).ys.getD (j + 1) 0 -
              ({ xs := [-40, -159/4], ys := [3, 5] } : Track).ys.getD j 0) *
            (((-39/1 - 9/10 : ℚ) - ({ xs := [-40, -159/4], ys := [3, 5] } : Track).xs.getD j 0) /
              (({ xs := [-40, -159/4], ys := [3, 5] } : Track).xs.getD (j + 1) 0 -
                ({ xs := [-40, -159/4], ys := [3, 5] } : Track).xs.getD j 0))) := by
  have hg : OnGrid { xs := [-40, -159/4], ys := [3, 5] } := by
    refine ⟨by norm_num, by norm_num, ?_⟩
    intro i hi
    simp only [List.length_cons, List.length_nil] at hi
    interval_cases i <;> norm_num [List.getD, TRACK_X0, TRACK_DX]
  exact ⟨hg, sampleTrackY_spec { xs := [-40, -159/4], ys := [3, 5] } (-39/1 - 9/10) hg⟩

/-! ### Claim C2: fuel bounds -/

theorem fuelPhase_fuel (obs : Obs) (g : GState)
    (h0 : 0 ≤ g.s.fuel) (h1 : g.s.fuel ≤ 100) :
    0 ≤ (fuelPhase obs g).s.fuel ∧ (fuelPhase obs g).s.fuel ≤ 100 := by
  unfold fuelPhase
  dsimp only
  split
  · split
    · exact ⟨le_refl 0, by norm_num⟩
    · next hns =>
      have hg2 : (0 : ℚ) ≤ max 0 g.throttle := le_max_left _ _
      have hv : (0 : ℚ) ≤ |obs.vxPre| := abs_nonneg _
      have hd : (0 : ℚ) ≤ (16/100 + 135/100 * max 0 g.throttle
          + 12/1000 * |obs.vxPre| * max 0 g.throttle) * DT := by
        apply mul_nonneg
        · have t2 : (0 : ℚ) ≤ 135/100 * max 0 g.throttle :=
            mul_nonneg (by norm_num) hg2
          have t3 : (0 : ℚ) ≤ 12/1000 * |obs.vxPre| * max 0 g.throttle :=
            mul_nonneg (mul_nonneg (by norm_num) hv) hg2
          linarith
        · norm_num [DT]
      constructor
      · linarith [not_le.mp hns]
      · linarith
  · exact ⟨h0, h1⟩

theorem airPhase_fuel (obs : Obs) (g : GState)
    (h0 : 0 ≤ g.s.fuel) (h1 : g.s.fuel ≤ 100) :
    0 ≤ (airPhase obs g).s.fuel ∧ (airPhase obs g).s.fuel ≤ 100 := by
  unfold airPhase
  dsimp only
  repeat' split
  all_goals
    first
      | exact ⟨h0, h1⟩
      | exact ⟨le_min (by norm_num) (add_nonneg h0 (by positivity)), min_le_left _ _⟩

theorem pickOne_fuel (pts : List (ℚ × ℚ)) (g : GState) (p : Pickup)
    (h0 : 0 ≤ g.s.fuel) (h1 : g.s.fuel ≤ 100) (hv : 0 ≤ p.value) :
    0 ≤ (pickOne pts g p).1.s.fuel ∧ (pickOne pts g p).1.s.fuel ≤ 100 := by
  unfold pickOne
  dsimp only
  repeat' split
  all_goals
    first
      | exact ⟨h0, h1⟩
      | exact ⟨le_min (by norm_num) (add_nonneg h0 hv), min_le_left _ _⟩

theorem pickOne_snd_value (pts : List (ℚ × ℚ)) (g : GState) (p : Pickup) :
    (pickOne pts g p).2.value = p.value := by
  unfold pickOne
  dsimp only
  repeat' split
  all_goals rfl

theorem pickLoop_fuel (pts : List (ℚ × ℚ)) (ps : List Pickup) (g : GState)
    (h0 : 0 ≤ g.s.fuel) (h1 : g.s.fuel ≤ 100) (hv : ∀ p ∈ ps, 0 ≤ p.value) :
    0 ≤ (pickLoop pts g ps).1.s.fuel ∧ (pickLoop pts g ps).1.s.fuel ≤ 100 := by
  induction ps generalizing g with
  | nil => exact ⟨h0, h1⟩
  | cons p rest ih =>
    simp only [pickLoop]
    have hb := pickOne_fuel pts g p h0 h1 (hv p (by simp))
    exact ih (pickOne pts g p).1 hb.1 hb.2 (fun q hq => hv q (by simp [hq]))

theorem pickLoop_values (pts : List (ℚ × ℚ)) (ps : List Pickup) (g : GState)
    (hv : ∀ p ∈ ps, 0 ≤ p.value) :
    ∀ q ∈ (pickLoop pts g ps).2, 0 ≤ q.value := by
  induction ps generalizing g with
  | nil =>
    intro q hq
    simp [pickLoop] at hq
  | cons p rest ih =>
    intro q hq
    simp only [pickLoop, List.mem_cons] at hq
    rcases hq with hq | hq
    · rw [hq, pickOne_snd_value]
      exact hv p (by simp)
    · exact ih (pickOne pts g p).1 (fun r hr => hv r (by simp [hr])) q hq

theorem pickupPhase_fuel (obs : Obs) (g : GState)
    (h0 : 0 ≤ g.s.fuel) (h1 : g.s.fuel ≤ 100) (hv : ∀ p ∈ g.pickups, 0 ≤ p.value) :
    0 ≤ (pickupPhase obs g).s.fuel ∧ (pickupPhase obs g).s.fuel ≤ 100 := by
  unfold pickupPhase
  dsimp only
  exact pickLoop_fuel _ _ _ h0 h1 hv

theorem pickupPhase_values (obs : Obs) (g : GState)
    (hv : ∀ p ∈ g.pickups, 0 ≤ p.value) :
    ∀ q ∈ (pickupPhase obs g).pickups, 0 ≤ q.value := by
  unfold pickupPhase
  dsimp only
  exact pickLoop_values _ _ _ hv

theorem stepGame_FuelWF (k : ℚ) (obs : Obs) (g : GState) (h : FuelWF g) :
    FuelWF (stepGame k obs g) := by
  obtain ⟨h0, h1, hv⟩ := h
  have e1 : (idlePhase (smoothPhase k g)).s.fuel = g.s.fuel := by
    rw [(idlePhase_proj _).2.1, smoothPhase_s]
  have hb2 : 0 ≤ (fuelPhase obs (idlePhase (smoothPhase k g))).s.fuel ∧
      (fuelPhase obs (idlePhase (smoothPhase k g))).s.fuel ≤ 100 := by
    refine fuelPhase_fuel obs _ ?_ ?_
    · rw [e1]; exact h0
    · rw [e1]; exact h1
  have e3 : (derivPhase obs (airChargePhase obs (boostSpendPhase
        (fuelPhase obs (idlePhase (smoothPhase k g)))))).s.fuel
      = (fuelPhase obs (idlePhase (smoothPhase k g))).s.fuel := by
    rw [(derivPhase_proj _ _).1, (airChargePhase_proj _ _).2.1,
      (boostSpendPhase_proj _).2.1]
  have hb4 : 0 ≤ (airPhase obs (derivPhase obs (airChargePhase obs (boostSpendPhase
        (fuelPhase obs (idlePhase (smoothPhase k g))))))).s.fuel ∧
      (airPhase obs (derivPhase obs (airChargePhase obs (boostSpendPhase
        (fuelPhase obs (idlePhase (smoothPhase k g))))))).s.fuel ≤ 100 := by
    refine airPhase_fuel obs _ ?_ ?_
    · rw [e3]; exact hb2.1
    · rw [e3]; exact hb2.2
  have epk : (airPhase obs (derivPhase obs (airChargePhase obs (boostSpendPhase
        (fuelPhase obs (idlePhase (smoothPhase k g))))))).pickups = g.pickups := by
    rw [(airPhase_proj _ _).2.2.2.2.2.1, (derivPhase_proj _ _).2.2.2.2.2.1,
      (airChargePhase_proj _ _).2.2.2.2.2.2.1, (boostSpendPhase_proj _).2.2.2.2.2.2.1,
      (fuelPhase_proj _ _).2.2.2.1, (idlePhase_proj _).2.2.2.2.1, smoothPhase_pickups]
  have hb5 : 0 ≤ (pickupPhase obs (airPhase obs (derivPhase obs (airChargePhase obs
        (boostSpendPhase (fuelPhase obs (idlePhase (smoothPhase k g)))))))).s.fuel ∧
      (pickupPhase obs (airPhase obs (derivPhase obs (airChargePhase obs
        (boostSpendPhase (fuelPhase obs (idlePhase (smoothPhase k g)))))))).s.fuel ≤ 100 := by
    refine pickupPhase_fuel obs _ ?_ ?_ ?_
    · exact hb4.1
    · exact hb4.2
    · rw [epk]; exact hv
  have hv5 : ∀ q ∈ (pickupPhase obs (airPhase obs (derivPhase obs (airChargePhase obs
        (boostSpendPhase (fuelPhase obs (idlePhase (smoothPhase k g)))))))).pickups,
      0 ≤ q.value := by
    refine pickupPhase_values obs _ ?_
    rw [epk]; exact hv
  unfold stepGame preCrash prePickup tickPre
  refine ⟨?_, ?_, ?_⟩
  · rw [(freezePhase_proj _ _).1, (crashPhase_proj _ _).2.1]
    exact hb5.1
  · rw [(freezePhase_proj _ _).1, (crashPhase_proj _ _).2.1]
    exact hb5.2
  · rw [(freezePhase_proj _ _).2.2.2.2.2.1, (crashPhase_proj _ _).2.2.2.1]
    exact hv5

theorem applyIn_proj (i : TickIn) (g : GState) :
    (applyIn i g).s = g.s ∧ (applyIn i g).pickups = g.pickups := by
  unfold applyIn
  dsimp only
  repeat' split
  all_goals exact ⟨rfl, rfl⟩

theorem stepTick_FuelWF (k : ℚ) (i : TickIn) (g : GState) (h : FuelWF g) :
    FuelWF (stepTick k i g) := by
  unfold stepTick
  apply stepGame_FuelWF
  unfold FuelWF at h ⊢
  rw [(applyIn_proj i g).1, (applyIn_proj i g).2]
  exact h

theorem runTicks_FuelWF (k : ℚ) (l : List TickIn) (g : GState) (h : FuelWF g) :
    FuelWF (runTicks k l g) := by
  induction l generalizing g with
  | nil => exact h
  | cons i rest ih =>
    simp only [runTicks, List.foldl] at ih ⊢
    exact ih (stepTick k i g) (stepTick_FuelWF k i g h)

/-- Claim C2: starting from any fuel-well-formed state (fuel within
`[0, 100]`, nonnegative pickup values — as after `reset()`), after every
sequence of host inputs and physics observations, and for every number of
ticks, `fuel` lies within `[0, 100]` at the end of every tick: the drain
clamps at 0 (with the `OUT_OF_FUEL` transition), and both the flip fuel
bonus and fuel-pickup replenishment clamp at 100. -/
theorem fuel_bounds (k : ℚ) (l : List TickIn) (g : GState) (h : FuelWF g) :
    0 ≤ (runTicks k l g).s.fuel ∧ (runTicks k l g).s.fuel ≤ 100 :=
  ⟨(runTicks_FuelWF k l g h).1, (runTicks_FuelWF k l g h).2.1⟩

/-- Witness for C2: one neutral tick from the reset state. -/
theorem fuel_bounds_witness :
    FuelWF initG ∧
      (0 ≤ (runTicks (1/10) [{ setT := none, setB := none, obs := obs0 }] initG).s.fuel ∧
       (runTicks (1/10) [{ setT := none, setB := none, obs := obs0 }] initG).s.fuel ≤ 100) := by
  have hwf : FuelWF initG := by
    refine ⟨by norm_num [initG], by norm_num [initG], ?_⟩
    intro p hp
    simp [initG] at hp
  exact ⟨hwf, fuel_bounds (1/10) [{ setT := none, setB := none, obs := obs0 }] initG hwf⟩

/-! ### Claim C8: crash when the head point is below terrain -/

theorem preCrash_track (k : ℚ) (obs : Obs) (g : GState) :
    (preCrash k obs g).track = g.track := by
  unfold preCrash prePickup tickPre
  rw [(pickupPhase_proj _ _).2.2.2.1, (airPhase_proj _ _).2.2.2.2.1,
    (derivPhase_proj _ _).2.2.2.2.1, (airChargePhase_proj _ _).2.2.2.2.2.1,
    (boostSpendPhase_proj _).2.2.2.2.2.1, (fuelPhase_proj _ _).2.2.1,
    (idlePhase_proj _).2.2.2.1, smoothPhase_track]

/-- Claim C8: if at the crash check the status is `RUN` and the head
reference point's world y is below the local terrain height at the head's
x, then the tick ends with status `CRASH`, both the throttle target and the
smoothed throttle zeroed, and the per-jump air state reset. -/
theorem crash_on_head_below (k : ℚ) (obs : Obs) (g : GState)
    (hrun : (preCrash k obs g).s.status = Status.RUN)
    (hbelow : obs.headY < sampleTrackY g.track obs.headX) :
    (stepGame k obs g).s.status = Status.CRASH ∧
    (stepGame k obs g).throttleTarget = 0 ∧
    (stepGame k obs g).throttle = 0 ∧
    (stepGame k obs g).air
      = { active := false, t := 0, acc := 0, lastAngle := 0, flipCount := 0 } ∧
    (stepGame k obs g).s.airtimeS = 0 := by
  have htr : (preCrash k obs g).track = g.track := preCrash_track k obs g
  have hc : crashPhase obs (preCrash k obs g) =
      { preCrash k obs g with
        s := { (preCrash k obs g).s with status := Status.CRASH, airtimeS := 0 },
        throttleTarget := 0,
        throttle := 0,
        freeze := { t := 0, frozen := false },
        air := { active := false, t := 0, acc := 0, lastAngle := 0, flipCount := 0 } } := by
    unfold crashPhase
    rw [if_pos hrun]
    dsimp only
    rw [if_pos (Or.inl (by rw [htr]; linarith))]
  unfold stepGame
  rw [hc]
  refine ⟨?_, ?_, ?_, ?_, ?_⟩
  · rw [(freezePhase_proj _ _).1]
  · rw [(freezePhase_proj _ _).2.2.1]
  · rw [(freezePhase_proj _ _).2.1]
  · rw [(freezePhase_proj _ _).2.2.2.1]
  · rw [(freezePhase_proj _ _).1]

/-- Witness for C8: a grounded mid-run tick whose head observation sits
below the flat terrain. -/
theorem crash_on_head_below_witness :
    (preCrash (1/10) obsC8 gC8).s.status = Status.RUN ∧
    obsC8.headY < sampleTrackY gC8.track obsC8.headX ∧
    ((stepGame (1/10) obsC8 gC8).s.status = Status.CRASH ∧
     (stepGame (1/10) obsC8 gC8).throttleTarget = 0 ∧
     (stepGame (1/10) obsC8 gC8).throttle = 0 ∧
     (stepGame (1/10) obsC8 gC8).air
       = { active := false, t := 0, acc := 0, lastAngle := 0, flipCount := 0 } ∧
     (stepGame (1/10) obsC8 gC8).s.airtimeS = 0) := by
  have h1 : (preCrash (1/10) obsC8 gC8).s.status = Status.RUN := by
    norm_num [preCrash, prePickup, tickPre, smoothPhase, idlePhase, fuelPhase,
      boostSpendPhase, airChargePhase, derivPhase, airPhase, pickupPhase,
      pickLoop, gC8, obsC8, obs0, initG, DT]
  have h2 : obsC8.headY < sampleTrackY gC8.track obsC8.headX := by
    norm_num [sampleTrackY, gC8, obsC8, obs0, initG, List.getD]
  exact ⟨h1, h2, crash_on_head_below (1/10) obsC8 gC8 h1 h2⟩

/-! ### Claim C10: no resume from OUT_OF_FUEL when fuel was already positive -/

theorem prePickup_status_OOF (k : ℚ) (obs : Obs) (g : GState)
    (h : g.s.status = Status.OUT_OF_FUEL) :
    (prePickup k obs g).s.status = Status.OUT_OF_FUEL := by
  unfold prePickup tickPre
  rw [(airPhase_proj _ _).2.1, (derivPhase_proj _ _).2.1,
    (airChargePhase_proj _ _).2.2.1, (boostSpendPhase_proj _).2.2.1]
  rcases fuelPhase_status obs (idlePhase (smoothPhase k g)) with he | ⟨hr, _⟩
  · rw [he]
    rcases idlePhase_status (smoothPhase k g) with he2 | ⟨hi, _, _⟩
    · rw [he2, smoothPhase_s]
      exact h
    · rw [smoothPhase_s, h] at hi
      simp at hi
  · rcases idlePhase_status (smoothPhase k g) with he2 | ⟨hi, _, _⟩
    · rw [he2, smoothPhase_s, h] at hr
      simp at hr
    · rw [smoothPhase_s, h] at hi
      simp at hi

theorem prePickup_pickups (k : ℚ) (obs : Obs) (g : GState) :
    (prePickup k obs g).pickups = g.pickups := by
  unfold prePickup tickPre
  rw [(airPhase_proj _ _).2.2.2.2.2.1, (derivPhase_proj _ _).2.2.2.2.2.1,
    (airChargePhase_proj _ _).2.2.2.2.2.2.1, (boostSpendPhase_proj _).2.2.2.2.2.2.1,
    (fuelPhase_proj _ _).2.2.2.1, (idlePhase_proj _).2.2.2.2.1, smoothPhase_pickups]

theorem pickOne_OOF (pts : List (ℚ × ℚ)) (g : GState) (p : Pickup)
    (hst : g.s.status = Status.OUT_OF_FUEL) (hpos : 0 < g.s.fuel)
    (hub : g.s.fuel ≤ 100) (hv : 0 ≤ p.value) :
    (pickOne pts g p).1.s.status = Status.OUT_OF_FUEL ∧
    0 < (pickOne pts g p).1.s.fuel ∧ (pickOne pts g p).1.s.fuel ≤ 100 := by
  unfold pickOne
  dsimp only
  repeat' split
  all_goals
    first
      | exact ⟨hst, hpos, hub⟩
      | (next hres => exact absurd hres.2.1 (not_le.mpr hpos))
      | exact ⟨hst, lt_min_iff.mpr ⟨by norm_num, by linarith⟩, min_le_left _ _⟩

theorem pickLoop_OOF (pts : List (ℚ × ℚ)) (ps : List Pickup) (g : GState)
    (hst : g.s.status = Status.OUT_OF_FUEL) (hpos : 0 < g.s.fuel)
    (hub : g.s.fuel ≤ 100) (hv : ∀ p ∈ ps, 0 ≤ p.value) :
    (pickLoop pts g ps).1.s.status = Status.OUT_OF_FUEL ∧
    0 < (pickLoop pts g ps).1.s.fuel ∧ (pickLoop pts g ps).1.s.fuel ≤ 100 := by
  induction ps generalizing g with
  | nil => exact ⟨hst, hpos, hub⟩
  | cons p rest ih =>
    simp only [pickLoop]
    have hb := pickOne_OOF pts g p hst hpos hub (hv p (by simp))
    exact ih (pickOne pts g p).1 hb.1 hb.2.1 hb.2.2 (fun q hq => hv q (by simp [hq]))

/-- Claim C10 (implicit): if a tick starts in `OUT_OF_FUEL` and fuel is
already strictly positive when the pickup loop runs (reachable, since a
flip performed while airborne in `OUT_OF_FUEL` awards +3 fuel per flip
without changing the status), then even if a fuel pickup is collected
during the tick the run does not resume: the resume branch requires fuel to
have been at/below 0 before the pickup, so the status after the tick is
still `OUT_OF_FUEL`. -/
theorem oof_no_resume_when_fuel_positive (k : ℚ) (obs : Obs) (g : GState)
    (hoof : g.s.status = Status.OUT_OF_FUEL)
    (hpos : 0 < (prePickup k obs g).s.fuel)
    (hub : (prePickup k obs g).s.fuel ≤ 100)
    (hv : ∀ p ∈ g.pickups, 0 ≤ p.value)
    (_hcollect : (stepGame k obs g).fuelLog ≠ g.fuelLog) :
    (stepGame k obs g).s.status = Status.OUT_OF_FUEL := by
  have hst1 : (prePickup k obs g).s.status = Status.OUT_OF_FUEL :=
    prePickup_status_OOF k obs g hoof
  have hv1 : ∀ p ∈ (prePickup k obs g).pickups, 0 ≤ p.value := by
    rw [prePickup_pickups]
    exact hv
  have hst2 : (pickupPhase obs (prePickup k obs g)).s.status = Status.OUT_OF_FUEL := by
    unfold pickupPhase
    dsimp only
    exact (pickLoop_OOF _ _ _ hst1 hpos hub hv1).1
  unfold stepGame preCrash
  rw [(freezePhase_proj _ _).1]
  rcases crashPhase_status obs (pickupPhase obs (prePickup k obs g)) with he | ⟨hr, _⟩
  · rw [he]
    exact hst2
  · rw [hst2] at hr
    simp at hr

/-- Witness for C10: the scenario of `gC10`/`obsC10` — a flip in
`OUT_OF_FUEL` brings fuel to 3, the fuel can at the origin is collected
(the fuel log grows), and the status still ends `OUT_OF_FUEL`. -/
theorem oof_no_resume_witness :
    gC10.s.status = Status.OUT_OF_FUEL ∧
    0 < (prePickup (1/10) obsC10 gC10).s.fuel ∧
    (prePickup (1/10) obsC10 gC10).s.fuel ≤ 100 ∧
    (∀ p ∈ gC10.pickups, 0 ≤ p.value) ∧
    (stepGame (1/10) obsC10 gC10).fuelLog ≠ gC10.fuelLog ∧
    (stepGame (1/10) obsC10 gC10).s.status = Status.OUT_OF_FUEL := by
  have hpi : (0 : ℚ) < PI := pi_pos
  have e1 : unwrapD (2 * PI - PI) = PI := by
    rw [show (2 * PI - PI : ℚ) = PI by ring]
    exact unwrapD_of_mem PI (by linarith) (le_refl PI)
  have e2 : (⌊|PI + PI| / (2 * PI)⌋).toNat = 1 := by
    rw [show |PI + PI| = 2 * PI by rw [abs_of_nonneg (by linarith)]; ring]
    rw [div_self (by positivity)]
    norm_num
  have hstep : prePickup (1/10) obsC10 gC10 =
      { s := { distanceM := 0, bestM := 0, coins := 5, fuel := 3,
               status := Status.OUT_OF_FUEL, rpm01 := 0, boost01 := 217/1200,
               speedKmh := 0, airtimeS := 1/20, flips := 1,
               toast := Toast.flip 5 3, toastT := 27/20 },
        throttleTarget := 0, throttle := 0, boostHeld := false,
        air := { active := true, t := 1/20, acc := 2 * PI,
                 lastAngle := 2 * PI, flipCount := 1 },
        freeze := { t := 0, frozen := false },
        pickups := [{ kind := PKind.fuel, x := 0, y := 0, value := 35, taken := false }],
        track := { xs := [-40, 1800], ys := [-100, -100] },
        flipEvents := [1], fuelLog := [] } := by
    norm_num [prePickup, tickPre, smoothPhase, idlePhase, fuelPhase,
      boostSpendPhase, airChargePhase, derivPhase, airPhase, e1, e2,
      gC10, obsC10, obs0, initG, DT, min_def]
    try ring
  have hfuel : (prePickup (1/10) obsC10 gC10).s.fuel = 3 := by rw [hstep]
  have hoof : gC10.s.status = Status.OUT_OF_FUEL := by norm_num [gC10, initG]
  have hpos : 0 < (prePickup (1/10) obsC10 gC10).s.fuel := by
    rw [hfuel]
    norm_num
  have hub : (prePickup (1/10) obsC10 gC10).s.fuel ≤ 100 := by
    rw [hfuel]
    norm_num
  have hv : ∀ p ∈ gC10.pickups, 0 ≤ p.value := by
    intro p hp
    simp only [gC10, initG, List.mem_singleton] at hp
    rw [hp]
    norm_num
  have hlog : (stepGame (1/10) obsC10 gC10).fuelLog
      = (pickupPhase obsC10 (prePickup (1/10) obsC10 gC10)).fuelLog := by
    unfold stepGame preCrash
    rw [(freezePhase_proj _ _).2.2.2.2.2.2, (crashPhase_proj _ _).2.2.2.2]
  have hpk : (pickupPhase obsC10 (prePickup (1/10) obsC10 gC10)).fuelLog
      = [(3, 38)] := by
    rw [hstep]
    norm_num [pickupPhase, pickLoop, pickOne, obsC10, obs0, min_def]
  have hcollect : (stepGame (1/10) obsC10 gC10).fuelLog ≠ gC10.fuelLog := by
    rw [hlog, hpk]
    simp [gC10, initG]
  exact ⟨hoof, hpos, hub, hv, hcollect,
    oof_no_resume_when_fuel_positive (1/10) obsC10 gC10 hoof hpos hub hv hcollect⟩

/-! ### Claim C7: flip counting and reward granularity -/

theorem uw_zero : unwrapD 0 = 0 :=
  unwrapD_of_mem 0 (by linarith [pi_pos]) (le_of_lt pi_pos)

theorem uw_pi : unwrapD PI = PI :=
  unwrapD_of_mem PI (by linarith [pi_pos]) (le_refl PI)

theorem uw_pi2 : unwrapD (2 * PI - PI) = PI := by
  rw [show (2 * PI - PI : ℚ) = PI from by ring]
  exact uw_pi

theorem uw_pi3 : unwrapD (3 * PI - 2 * PI) = PI := by
  rw [show (3 * PI - 2 * PI : ℚ) = PI from by ring]
  exact uw_pi

theorem uw_pi4 : unwrapD (4 * PI - 3 * PI) = PI := by
  rw [show (4 * PI - 3 * PI : ℚ) = PI from by ring]
  exact uw_pi

theorem ffl_pi : (⌊|PI| / (2 * PI)⌋).toNat = 0 := by
  have hpi : (0 : ℚ) < PI := pi_pos
  have h1 : |PI| / (2 * PI) = 1 / 2 := by
    rw [abs_of_nonneg (le_of_lt hpi),
      div_eq_iff (ne_of_gt (by linarith : (0 : ℚ) < 2 * PI))]
    ring
  rw [h1]
  have h2 : ⌊(1 / 2 : ℚ)⌋ = 0 := by
    rw [Int.floor_eq_iff]
    norm_num
  rw [h2]
  rfl

theorem ffl_2pi : (⌊|PI + PI| / (2 * PI)⌋).toNat = 1 := by
  have hpi : (0 : ℚ) < PI := pi_pos
  have h1 : |PI + PI| / (2 * PI) = 1 := by
    rw [abs_of_nonneg (by linarith : (0 : ℚ) ≤ PI + PI),
      div_eq_iff (ne_of_gt (by linarith : (0 : ℚ) < 2 * PI))]
    ring
  rw [h1]
  rfl

theorem ffl_3pi : (⌊|PI + PI + PI| / (2 * PI)⌋).toNat = 1 := by
  have hpi : (0 : ℚ) < PI := pi_pos
  have h1 : |PI + PI + PI| / (2 * PI) = 3 / 2 := by
    rw [abs_of_nonneg (by linarith : (0 : ℚ) ≤ PI + PI + PI),
      div_eq_iff (ne_of_gt (by linarith : (0 : ℚ) < 2 * PI))]
    ring
  rw [h1]
  have h2 : ⌊(3 / 2 : ℚ)⌋ = 1 := by
    rw [Int.floor_eq_iff]
    norm_num
  rw [h2]
  rfl

theorem ffl_4pi : (⌊|PI + PI + PI + PI| / (2 * PI)⌋).toNat = 2 := by
  have hpi : (0 : ℚ) < PI := pi_pos
  have h1 : |PI + PI + PI + PI| / (2 * PI) = 2 := by
    rw [abs_of_nonneg (by linarith : (0 : ℚ) ≤ PI + PI + PI + PI),
      div_eq_iff (ne_of_gt (by linarith : (0 : ℚ) < 2 * PI))]
    ring
  rw [h1]
  have h2 : ⌊(2 : ℚ)⌋ = 2 := by
    rw [Int.floor_eq_iff]
    norm_num
  rw [h2]
  rfl

theorem c7step1 :
    stepTick (1/10) { setT := none, setB := none, obs := c7obs 0 } c7g0 =
    { s := { distanceM := 0, bestM := 0, coins := 0, fuel := 18749/375,
             status := Status.RUN, rpm01 := 0, boost01 := 1/1200,
             speedKmh := 0, airtimeS := 1/60, flips := 0,
             toast := Toast.empty, toastT := 0 },
      throttleTarget := 0, throttle := 0, boostHeld := false,
      air := { active := true, t := 1/60, acc := 0, lastAngle := 0, flipCount := 0 },
      freeze := { t := 0, frozen := false },
      pickups := [], track := c7track,
      flipEvents := [], fuelLog := [] } := by
  norm_num [stepTick, applyIn, stepGame, preCrash, prePickup, tickPre,
    smoothPhase, idlePhase, fuelPhase, boostSpendPhase, airChargePhase,
    derivPhase, airPhase, pickupPhase, pickLoop, crashPhase, freezePhase,
    sampleTrackY, c7obs, c7g0, c7track, obs0, initG, DT, uw_zero, uw_pi,
    uw_pi2, uw_pi3, uw_pi4, ffl_pi, ffl_2pi, ffl_3pi, ffl_4pi,
    min_def, max_def, List.getD]
  all_goals
    intro h
    exact Status.noConfusion h

theorem c7step2 :
    stepTick (1/10) { setT := none, setB := none, obs := c7obs PI }
    { s := { distanceM := 0, bestM := 0, coins := 0, fuel := 18749/375,
             status := Status.RUN, rpm01 := 0, boost01 := 1/1200,
             speedKmh := 0, airtimeS := 1/60, flips := 0,
             toast := Toast.empty, toastT := 0 },
      throttleTarget := 0, throttle := 0, boostHeld := false,
      air := { active := true, t := 1/60, acc := 0, lastAngle := 0, flipCount := 0 },
      freeze := { t := 0, frozen := false },
      pickups := [], track := c7track,
      flipEvents := [], fuelLog := [] } =
    { s := { distanceM := 0, bestM := 0, coins := 0, fuel := 18748/375,
             status := Status.RUN, rpm01 := 0, boost01 := 1/600,
             speedKmh := 0, airtimeS := 1/30, flips := 0,
             toast := Toast.empty, toastT := 0 },
      throttleTarget := 0, throttle := 0, boostHeld := false,
      air := { active := true, t := 1/30, acc := PI, lastAngle := PI, flipCount := 0 },
      freeze := { t := 0, frozen := false },
      pickups := [], track := c7track,
      flipEvents := [], fuelLog := [] } := by
  norm_num [stepTick, applyIn, stepGame, preCrash, prePickup, tickPre,
    smoothPhase, idlePhase, fuelPhase, boostSpendPhase, airChargePhase,
    derivPhase, airPhase, pickupPhase, pickLoop, crashPhase, freezePhase,
    sampleTrackY, c7obs, c7track, obs0, DT, uw_zero, uw_pi,
    uw_pi2, uw_pi3, uw_pi4, ffl_pi, ffl_2pi, ffl_3pi, ffl_4pi,
    min_def, max_def, List.getD]
  all_goals
    intro h
    exact Status.noConfusion h

theorem c7step3 :
    stepTick (1/10) { setT := none, setB := none, obs := c7obs (2 * PI) }
    { s := { distanceM := 0, bestM := 0, coins := 0, fuel := 18748/375,
             status := Status.RUN, rpm01 := 0, boost01 := 1/600,
             speedKmh := 0, airtimeS := 1/30, flips := 0,
             toast := Toast.empty, toastT := 0 },
      throttleTarget := 0, throttle := 0, boostHeld := false,
      air := { active := true, t := 1/30, acc := PI, lastAngle := PI, flipCount := 0 },
      freeze := { t := 0, frozen := false },
      pickups := [], track := c7track,
      flipEvents := [], fuelLog := [] } =
    { s := { distanceM := 0, bestM := 0, coins := 5, fuel := 6624/125,
             status := Status.RUN, rpm01 := 0, boost01 := 73/400,
             speedKmh := 0, airtimeS := 1/20, flips := 1,
             toast := Toast.flip 5 3, toastT := 27/20 },
      throttleTarget := 0, throttle := 0, boostHeld := false,
      air := { active := true, t := 1/20, acc := PI + PI, lastAngle := 2 * PI, flipCount := 1 },
      freeze := { t := 0, frozen := false },
      pickups := [], track := c7track,
      flipEvents := [1], fuelLog := [] } := by
  norm_num [stepTick, applyIn, stepGame, preCrash, prePickup, tickPre,
    smoothPhase, idlePhase, fuelPhase, boostSpendPhase, airChargePhase,
    derivPhase, airPhase, pickupPhase, pickLoop, crashPhase, freezePhase,
    sampleTrackY, c7obs, c7track, obs0, DT, uw_zero, uw_pi,
    uw_pi2, uw_pi3, uw_pi4, ffl_pi, ffl_2pi, ffl_3pi, ffl_4pi,
    min_def, max_def, List.getD]
  all_goals
    intro h
    exact Status.noConfusion h

theorem c7step4 :
    stepTick (1/10) { setT := none, setB := none, obs := c7obs (3 * PI) }
    { s := { distanceM := 0, bestM := 0, coins := 5, fuel := 6624/125,
             status := Status.RUN, rpm01 := 0, boost01 := 73/400,
             speedKmh := 0, airtimeS := 1/20, flips := 1,
             toast := Toast.flip 5 3, toastT := 27/20 },
      throttleTarget := 0, throttle := 0, boostHeld := false,
      air := { active := true, t := 1/20, acc := PI + PI, lastAngle := 2 * PI, flipCount := 1 },
      freeze := { t := 0, frozen := false },
      pickups := [], track := c7track,
      flipEvents := [1], fuelLog := [] } =
    { s := { distanceM := 0, bestM := 0, coins := 5, fuel := 19871/375,
             status := Status.RUN, rpm01 := 0, boost01 := 11/60,
             speedKmh := 0, airtimeS := 1/15, flips := 1,
             toast := Toast.flip 5 3, toastT := 4/3 },
      throttleTarget := 0, throttle := 0, boostHeld := false,
      air := { active := true, t := 1/15, acc := PI + PI + PI, lastAngle := 3 * PI, flipCount := 1 },
      freeze := { t := 0, frozen := false },
      pickups := [], track := c7track,
      flipEvents := [1], fuelLog := [] } := by
  norm_num [stepTick, applyIn, stepGame, preCrash, prePickup, tickPre,
    smoothPhase, idlePhase, fuelPhase, boostSpendPhase, airChargePhase,
    derivPhase, airPhase, pickupPhase, pickLoop, crashPhase, freezePhase,
    sampleTrackY, c7obs, c7track, obs0, DT, uw_zero, uw_pi,
    uw_pi2, uw_pi3, uw_pi4, ffl_pi, ffl_2pi, ffl_3pi, ffl_4pi,
    min_def, max_def, List.getD]
  all_goals
    intro h
    exact Status.noConfusion h

theorem c7step5 :
    stepTick (1/10) { setT := none, setB := none, obs := c7obs (4 * PI) }
    { s := { distanceM := 0, bestM := 0, coins := 5, fuel := 19871/375,
             status := Status.RUN, rpm01 := 0, boost01 := 11/60,
             speedKmh := 0, airtimeS := 1/15, flips := 1,
             toast := Toast.flip 5 3, toastT := 4/3 },
      throttleTarget := 0, throttle := 0, boostHeld := false,
      air := { active := true, t := 1/15, acc := PI + PI + PI, lastAngle := 3 * PI, flipCount := 1 },
      freeze := { t := 0, frozen := false },
      pickups := [], track := c7track,
      flipEvents := [1], fuelLog := [] } =
    { s := { distanceM := 0, bestM := 0, coins := 10, fuel := 4199/75,
             status := Status.RUN, rpm01 := 0, boost01 := 437/1200,
             speedKmh := 0, airtimeS := 1/12, flips := 2,
             toast := Toast.flip 5 3, toastT := 27/20 },
      throttleTarget := 0, throttle := 0, boostHeld := false,
      air := { active := true, t := 1/12, acc := PI + PI + PI + PI, lastAngle := 4 * PI, flipCount := 2 },
      freeze := { t := 0, frozen := false },
      pickups := [], track := c7track,
      flipEvents := [1, 1], fuelLog := [] } := by
  norm_num [stepTick, applyIn, stepGame, preCrash, prePickup, tickPre,
    smoothPhase, idlePhase, fuelPhase, boostSpendPhase, airChargePhase,
    derivPhase, airPhase, pickupPhase, pickLoop, crashPhase, freezePhase,
    sampleTrackY, c7obs, c7track, obs0, DT, uw_zero, uw_pi,
    uw_pi2, uw_pi3, uw_pi4, ffl_pi, ffl_2pi, ffl_3pi, ffl_4pi,
    min_def, max_def, List.getD]
  all_goals
    intro h
    exact Status.noConfusion h

theorem c7final_eval :
    c7final =
    { s := { distanceM := 0, bestM := 0, coins := 10, fuel := 4199/75,
             status := Status.RUN, rpm01 := 0, boost01 := 437/1200,
             speedKmh := 0, airtimeS := 1/12, flips := 2,
             toast := Toast.flip 5 3, toastT := 27/20 },
      throttleTarget := 0, throttle := 0, boostHeld := false,
      air := { active := true, t := 1/12, acc := PI + PI + PI + PI, lastAngle := 4 * PI, flipCount := 2 },
      freeze := { t := 0, frozen := false },
      pickups := [], track := c7track,
      flipEvents := [1, 1], fuelLog := [] } := by
  unfold c7final runTicks c7ticks
  simp only [List.foldl_cons, List.foldl_nil]
  rw [c7step1, c7step2, c7step3, c7step4, c7step5]

/-- Claim C7 counterexample: in the scenario of `c7ticks` the chassis,
continuously airborne, accumulates exactly `4π` of signed rotation and
gains 2 flips — but the rewards are delivered as TWO separate events of
1 flip each (two toasts/awards, logged `[1, 1]`), not as a single combined
event sized for 2 flips (`[2]`). -/
theorem flip_reward_not_combined_counterexample :
    c7final.air.acc = 4 * PI ∧ c7final.s.flips = 2 ∧
    c7final.flipEvents.length = 2 ∧ ¬(c7final.flipEvents = [2]) := by
  rw [c7final_eval]
  refine ⟨by ring, rfl, rfl, ?_⟩
  simp

/-- Claim C7 (amended): a chassis that rotates continuously by exactly
`4π` while airborne gains `flips += 2`, delivered as two single-flip
reward events (one per `2π` crossing), each with a toast and a combined
coin/fuel/boost award sized for 1 flip; a single 2-flip event cannot occur
here, since the per-tick angle delta is unwrapped into `[-π, π]` so at most
one whole-flip crossing is detected per tick. -/
theorem flip_two_single_events :
    c7final.air.acc = 4 * PI ∧ c7final.s.flips = 2 ∧
    c7final.flipEvents = [1, 1] := by
  rw [c7final_eval]
  exact ⟨by ring, rfl, rfl⟩

/-! ### Claim C1: status transition legality -/

theorem StatusEdge.mono {thr : ℚ} {l1 l2 : List (ℚ × ℚ)}
    (hsub : ∀ a ∈ l1, a ∈ l2) {s1 s2 : Status}
    (h : StatusEdge thr l1 s1 s2) : StatusEdge thr l2 s1 s2 := by
  cases h with
  | idle_run hg => exact .idle_run hg
  | run_crash => exact .run_crash
  | run_out => exact .run_out
  | out_run fb fa hm h1 h2 => exact .out_run fb fa (hsub _ hm) h1 h2

theorem pickOne_log_mono (pts : List (ℚ × ℚ)) (g : GState) (p : Pickup) :
    ∀ a ∈ g.fuelLog, a ∈ (pickOne pts g p).1.fuelLog := by
  unfold pickOne
  dsimp only
  repeat' split
  all_goals intro a ha
  all_goals
    first
      | exact ha
      | exact List.mem_append_left _ ha

theorem pickLoop_log_mono (pts : List (ℚ × ℚ)) (ps : List Pickup) (g : GState) :
    ∀ a ∈ g.fuelLog, a ∈ (pickLoop pts g ps).1.fuelLog := by
  induction ps generalizing g with
  | nil => exact fun a ha => ha
  | cons p rest ih =>
    intro a ha
    simp only [pickLoop]
    exact ih (pickOne pts g p).1 a (pickOne_log_mono pts g p a ha)

theorem pickOne_status_edge (pts : List (ℚ × ℚ)) (g : GState) (p : Pickup) :
    (pickOne pts g p).1.s.status = g.s.status ∨
    (g.s.status = Status.OUT_OF_FUEL ∧ (pickOne pts g p).1.s.status = Status.RUN ∧
      ∃ fb fa, (fb, fa) ∈ (pickOne pts g p).1.fuelLog ∧ fb ≤ 0 ∧ 1/2 < fa) := by
  unfold pickOne
  dsimp only
  repeat' split
  all_goals
    first
      | exact Or.inl rfl
      | (next hres =>
          exact Or.inr ⟨hres.1, rfl, g.s.fuel, min 100 (g.s.fuel + p.value),
            List.mem_append_right _ (by simp), hres.2.1, hres.2.2⟩)

theorem pickLoop_status_rtc (pts : List (ℚ × ℚ)) (ps : List Pickup) (g : GState)
    (thr : ℚ) :
    Relation.ReflTransGen (StatusEdge thr (pickLoop pts g ps).1.fuelLog)
      g.s.status (pickLoop pts g ps).1.s.status := by
  induction ps generalizing g with
  | nil => exact Relation.ReflTransGen.refl
  | cons p rest ih =>
    simp only [pickLoop]
    have h2 := ih (pickOne pts g p).1
    rcases pickOne_status_edge pts g p with he | ⟨h0, h1, fb, fa, hm, hfb, hfa⟩
    · rw [he] at h2
      exact h2
    · have hedge : StatusEdge thr (pickLoop pts (pickOne pts g p).1 rest).1.fuelLog
          g.s.status (pickOne pts g p).1.s.status := by
        rw [h0, h1]
        exact StatusEdge.out_run fb fa
          (pickLoop_log_mono pts rest (pickOne pts g p).1 _ hm) hfb hfa
      exact Relation.ReflTransGen.trans (Relation.ReflTransGen.single hedge) h2

theorem pickupPhase_status_rtc (obs : Obs) (g : GState) (thr : ℚ) :
    Relation.ReflTransGen (StatusEdge thr (pickupPhase obs g).fuelLog)
      g.s.status (pickupPhase obs g).s.status := by
  unfold pickupPhase
  dsimp only
  exact pickLoop_status_rtc _ _ _ thr

/-- Claim C1: on every tick of `stepGame` (no reset), the status evolves
only along the legal guarded edges of the run state machine — `IDLE → RUN`
when the tick's smoothed throttle magnitude exceeds the deadzone,
`RUN → CRASH`, `RUN → OUT_OF_FUEL`, and `OUT_OF_FUEL → RUN` on a fuel
collection whose logged `(before, after)` satisfies `before ≤ 0` and
`after > 0.5` — so the tick's status change is a chain of legal edges, and
in particular `CRASH` has no outgoing transition at all. -/
theorem status_transitions_legal (k : ℚ) (obs : Obs) (g : GState) :
    Relation.ReflTransGen
      (StatusEdge (smoothPhase k g).throttle (stepGame k obs g).fuelLog)
      g.s.status (stepGame k obs g).s.status ∧
    (g.s.status = Status.CRASH → (stepGame k obs g).s.status = Status.CRASH) := by
  have hlog1 : (stepGame k obs g).fuelLog
      = (pickupPhase obs (prePickup k obs g)).fuelLog := by
    unfold stepGame preCrash
    rw [(freezePhase_proj _ _).2.2.2.2.2.2, (crashPhase_proj _ _).2.2.2.2]
  have eA : (tickPre k obs g).s.status
      = (fuelPhase obs (idlePhase (smoothPhase k g))).s.status := by
    unfold tickPre
    rw [(airChargePhase_proj _ _).2.2.1, (boostSpendPhase_proj _).2.2.1]
  have eB : (prePickup k obs g).s.status = (tickPre k obs g).s.status := by
    unfold prePickup
    rw [(airPhase_proj _ _).2.1, (derivPhase_proj _ _).2.1]
  have eC : (stepGame k obs g).s.status
      = (crashPhase obs (pickupPhase obs (prePickup k obs g))).s.status := by
    unfold stepGame preCrash
    rw [(freezePhase_proj _ _).1]
  have r1 : Relation.ReflTransGen
      (StatusEdge (smoothPhase k g).throttle (stepGame k obs g).fuelLog)
      g.s.status (fuelPhase obs (idlePhase (smoothPhase k g))).s.status := by
    rcases fuelPhase_status obs (idlePhase (smoothPhase k g)) with hf | ⟨hfr, hfo⟩
    · rw [hf]
      rcases idlePhase_status (smoothPhase k g) with hi | ⟨hii, hig, hir⟩
      · rw [hi, smoothPhase_s]
      · have hst : g.s.status = Status.IDLE := by
          rw [← smoothPhase_s k g]
          exact hii
        rw [hir, hst]
        exact Relation.ReflTransGen.single (StatusEdge.idle_run hig)
    · rcases idlePhase_status (smoothPhase k g) with hi | ⟨hii, hig, hir⟩
      · have hst : g.s.status = Status.RUN := by
          rw [← smoothPhase_s k g, ← hi]
          exact hfr
        rw [hfo, hst]
        exact Relation.ReflTransGen.single StatusEdge.run_out
      · have hst : g.s.status = Status.IDLE := by
          rw [← smoothPhase_s k g]
          exact hii
        rw [hfo, hst]
        exact Relation.ReflTransGen.trans
          (Relation.ReflTransGen.single (StatusEdge.idle_run hig))
          (Relation.ReflTransGen.single StatusEdge.run_out)
  have r2 : Relation.ReflTransGen
      (StatusEdge (smoothPhase k g).throttle (stepGame k obs g).fuelLog)
      g.s.status (prePickup k obs g).s.status := by
    rw [eB, eA]
    exact r1
  have r3 : Relation.ReflTransGen
      (StatusEdge (smoothPhase k g).throttle (stepGame k obs g).fuelLog)
      (prePickup k obs g).s.status (pickupPhase obs (prePickup k obs g)).s.status := by
    have h := pickupPhase_status_rtc obs (prePickup k obs g) (smoothPhase k g).throttle
    rw [← hlog1] at h
    exact h
  have r4 : Relation.ReflTransGen
      (StatusEdge (smoothPhase k g).throttle (stepGame k obs g).fuelLog)
      (pickupPhase obs (prePickup k obs g)).s.status
      (crashPhase obs (pickupPhase obs (prePickup k obs g))).s.status := by
    rcases crashPhase_status obs (pickupPhase obs (prePickup k obs g)) with hc | ⟨hcr, hcc⟩
    · rw [hc]
    · rw [hcr, hcc]
      exact Relation.ReflTransGen.single StatusEdge.run_crash
  have hrtc : Relation.ReflTransGen
      (StatusEdge (smoothPhase k g).throttle (stepGame k obs g).fuelLog)
      g.s.status (stepGame k obs g).s.status := by
    rw [eC]
    exact Relation.ReflTransGen.trans (Relation.ReflTransGen.trans r2 r3) r4
  refine ⟨hrtc, fun hcr => ?_⟩
  have hterm : ∀ s' : Status,
      Relation.ReflTransGen
        (StatusEdge (smoothPhase k g).throttle (stepGame k obs g).fuelLog)
        Status.CRASH s' → s' = Status.CRASH := by
    intro s' h
    induction h with
    | refl => rfl
    | tail _hab hbc ih =>
      rw [ih] at hbc
      cases hbc
  rw [hcr] at hrtc
  exact hterm _ hrtc

end HillClimb
